import Mathlib

/-!
Shallow embedding of the tkconfigure parameter-configuration engine
(src/tkconfigure.py, class TKConfigure) and proofs about its spec claims.

Modelling conventions:
* Python values are the inductive `PVal`.  Python floats are modelled as exact
  rationals (no NaN/infinity occurs in the flows covered by the claims);
  Python `complex` is a pair of rationals; Python callables (the `notify`
  attribute) are opaque tags; a nested `TKConfigure` value is `vTkc`.
* Python exceptions are `PyErr`; stateful methods return `TKC × Option PyErr`,
  keeping the partially mutated state on error exactly as Python does (an
  exception does not roll anything back).
* Python recursion through data (dict equality, JSON encoding, nested
  `setConfig`) is written with an explicit fuel argument so that every
  definition is structurally recursive and kernel-evaluable; the Python
  original always terminates because the data shrinks, so any fuel at least
  the nesting depth computes the same result.
* The tkinter widget layer is out of scope (spec section 1): the engine state
  keeps only the set of ids that have a bound widget, widget push operations
  are identity on engine state, and theorems about paths that would pull a
  value from a live widget are stated for states with no bound widgets,
  where the source skips those calls.
-/

namespace Tkc

/-- Python exception classes raised by the engine. -/
inductive PyErr where
  | typeError (msg : String)
  | valueError (msg : String)
  | keyError (msg : String)
  | indexError (msg : String)
  | attributeError (msg : String)
  deriving DecidableEq, Repr

/-- Python run-time type tags, the result of `type(x)` as used by the engine. -/
inductive PyType where
  | tyInt | tyFloat | tyBool | tyStr | tyComplex
  | tyList | tyTuple | tyDict | tyNone | tyTkc | tyCallback
  deriving DecidableEq, Repr

/-- JSON values as produced by Python `json.dumps`/`json.loads`; integers and
floating numbers are kept distinct because Python round-trips them that way. -/
inductive JVal where
  | jInt (n : Int)
  | jFloat (q : Rat)
  | jBool (b : Bool)
  | jStr (s : String)
  | jNull
  | jArr (xs : List JVal)
  | jObj (m : List (String × JVal))

mutual
/-- A Python value as manipulated by TKConfigure. -/
inductive PVal where
  | vInt (n : Int)
  | vFloat (q : Rat)
  | vBool (b : Bool)
  | vStr (s : String)
  | vComplex (re im : Rat)
  | vNone
  | vTuple (xs : List PVal)
  | vList (xs : List PVal)
  | vDict (m : List (String × PVal))
  | vCallback (tag : Nat)
  | vTkc (c : TKC)

/-- The state of one TKConfigure instance: `idList` maps parameter id to its
group, `parDef` maps group name to a dict of id to attribute dict, `config`
maps id to a dict with keys value and oldValue, `widgets` is the set of ids
with a bound input widget (opaque UI handles), `maxWidth` mirrors
`self.maxWidth`, `notifyChange` the optional global change callback. -/
inductive TKC where
  | mk (idList : List (String × String))
       (parDef : List (String × PVal))
       (config : List (String × PVal))
       (widgets : List String)
       (maxWidth : PVal)
       (notifyChange : Option Nat)
end

/-- Events observed on the UI-facing update path `_onChange`: the store commit
and the callback invocations with their arguments. -/
inductive Ev where
  | commit (id : String) (v : PVal)
  | notifyEv (tag : Nat) (old new : PVal)
  | notifyChangeEv (id : String) (old new : PVal)

/-- Projection: id to group map. -/
def TKC.idList : TKC → List (String × String)
  | .mk il _ _ _ _ _ => il

/-- Projection: group to parameter definition dict. -/
def TKC.parDef : TKC → List (String × PVal)
  | .mk _ pd _ _ _ _ => pd

/-- Projection: id to value dict. -/
def TKC.config : TKC → List (String × PVal)
  | .mk _ _ cfg _ _ _ => cfg

/-- Projection: ids with a bound widget. -/
def TKC.widgets : TKC → List String
  | .mk _ _ _ w _ _ => w

/-- Projection: maximum widget width seen so far. -/
def TKC.maxWidth : TKC → PVal
  | .mk _ _ _ _ mw _ => mw

/-- Projection: optional global change callback tag. -/
def TKC.notifyChange : TKC → Option Nat
  | .mk _ _ _ _ _ nc => nc

/-- Replace the config component. -/
def TKC.withConfig : TKC → List (String × PVal) → TKC
  | .mk il pd _ w mw nc, cfg => .mk il pd cfg w mw nc

/-- Replace the idList component. -/
def TKC.withIdList : TKC → List (String × String) → TKC
  | .mk _ pd cfg w mw nc, il => .mk il pd cfg w mw nc

/-- Replace the parDef component. -/
def TKC.withParDef : TKC → List (String × PVal) → TKC
  | .mk il _ cfg w mw nc, pd => .mk il pd cfg w mw nc

/-- Replace the maxWidth component. -/
def TKC.withMaxWidth : TKC → PVal → TKC
  | .mk il pd cfg w _ nc, mw => .mk il pd cfg w mw nc

/-- Association-list lookup, the Python `d[k]` / `d.get(k)` on string-keyed
dicts (first binding wins; dicts built by the engine have unique keys). -/
def alookup : List (String × PVal) → String → Option PVal
  | [], _ => none
  | (k, v) :: rest, key => if k == key then some v else alookup rest key

/-- Key membership in an association list. -/
def amem (l : List (String × PVal)) (key : String) : Bool :=
  (alookup l key).isSome

/-- Insert or replace one binding, keeping insertion order like a Python dict:
an existing key is updated in place, a new key is appended. -/
def aset : List (String × PVal) → String → PVal → List (String × PVal)
  | [], key, v => [(key, v)]
  | (k, w) :: rest, key, v =>
      if k == key then (k, v) :: rest else (k, w) :: aset rest key v

/-- Python `dict.update(other)`: each binding of `other` is inserted in order. -/
def aupdate (l other : List (String × PVal)) : List (String × PVal) :=
  other.foldl (fun acc kv => aset acc kv.1 kv.2) l

/-- Lookup in the string-to-string id list. -/
def slookup : List (String × String) → String → Option String
  | [], _ => none
  | (k, v) :: rest, key => if k == key then some v else slookup rest key

/-- The Python `type(x)` of a modelled value. -/
def PVal.pyType : PVal → PyType
  | .vInt _ => .tyInt
  | .vFloat _ => .tyFloat
  | .vBool _ => .tyBool
  | .vStr _ => .tyStr
  | .vComplex _ _ => .tyComplex
  | .vNone => .tyNone
  | .vTuple _ => .tyTuple
  | .vList _ => .tyList
  | .vDict _ => .tyDict
  | .vCallback _ => .tyCallback
  | .vTkc _ => .tyTkc

/-- Numeric view used by Python comparison and arithmetic: int, float and bool
all act as numbers. -/
def PVal.asNum : PVal → Option Rat
  | .vInt n => some (n : Rat)
  | .vFloat q => some q
  | .vBool b => some (if b then 1 else 0)
  | _ => none

/-- Python `a < b` restricted to the value kinds the engine compares: numbers
compare numerically, everything else (notably complex) raises TypeError. -/
def pyLt (a b : PVal) : Except PyErr Bool :=
  match a.asNum, b.asNum with
  | some x, some y => .ok (decide (x < y))
  | _, _ => .error (.typeError "unorderable types")

/-- Python `a > b` under the same restriction. -/
def pyGt (a b : PVal) : Except PyErr Bool :=
  match a.asNum, b.asNum with
  | some x, some y => .ok (decide (y < x))
  | _, _ => .error (.typeError "unorderable types")

mutual
/-- Python `a == b`, fueled so the definition is structurally recursive.
Numbers (int, float, bool, complex) compare numerically across kinds, lists
and tuples compare pairwise, dicts compare as unordered key-value sets.
Python compares TKConfigure instances and bound methods by object identity,
which a functional model cannot observe; `vTkc` and `vCallback` compare
structurally here, which agrees with identity on every comparison the engine
actually performs (the same stored object against itself). -/
def pyEqF : Nat → PVal → PVal → Bool
  | 0, _, _ => false
  | fuel + 1, a, b =>
    match a, b with
    | .vStr s, .vStr t => s == t
    | .vNone, .vNone => true
    | .vStr _, _ => false
    | _, .vStr _ => false
    | .vNone, _ => false
    | _, .vNone => false
    | .vTuple xs, .vTuple ys => pyEqListF fuel xs ys
    | .vList xs, .vList ys => pyEqListF fuel xs ys
    | .vDict m1, .vDict m2 => pyEqSubF fuel m1 m2 && pyEqSubF fuel m2 m1
    | .vCallback t1, .vCallback t2 => t1 == t2
    | .vTkc c1, .vTkc c2 => tkcEqF fuel c1 c2
    | .vComplex r1 i1, .vComplex r2 i2 => r1 == r2 && i1 == i2
    | .vComplex r i, other =>
        (match other.asNum with
         | some y => i == 0 && r == y
         | none => false)
    | other, .vComplex r i =>
        (match other.asNum with
         | some y => i == 0 && r == y
         | none => false)
    | x, y =>
        (match x.asNum, y.asNum with
         | some u, some v => u == v
         | _, _ => false)

/-- Pairwise Python equality of two sequences. -/
def pyEqListF : Nat → List PVal → List PVal → Bool
  | 0, _, _ => false
  | _, [], [] => true
  | fuel + 1, x :: xs, y :: ys => pyEqF fuel x y && pyEqListF fuel xs ys
  | _, _, _ => false

/-- One directed inclusion of Python dict equality: every binding of the
first dict appears (with an equal value) in the second. -/
def pyEqSubF : Nat → List (String × PVal) → List (String × PVal) → Bool
  | 0, _, _ => false
  | _, [], _ => true
  | fuel + 1, (k, v) :: rest, other =>
    (match alookup other k with
     | some w => pyEqF fuel v w
     | none => false) && pyEqSubF fuel rest other

/-- Structural comparison of two engine states, used for `vTkc` values. -/
def tkcEqF : Nat → TKC → TKC → Bool
  | 0, _, _ => false
  | fuel + 1, .mk il1 pd1 cfg1 w1 mw1 nc1, .mk il2 pd2 cfg2 w2 mw2 nc2 =>
    il1 == il2 && pyEqPairsF fuel pd1 pd2 && pyEqPairsF fuel cfg1 cfg2 &&
    w1 == w2 && pyEqF fuel mw1 mw2 && nc1 == nc2

/-- Ordered pairwise comparison of two key-value lists. -/
def pyEqPairsF : Nat → List (String × PVal) → List (String × PVal) → Bool
  | 0, _, _ => false
  | _, [], [] => true
  | fuel + 1, (k, v) :: xs, (l, w) :: ys =>
    k == l && pyEqF fuel v w && pyEqPairsF fuel xs ys
  | _, _, _ => false
end

mutual
/-- Structural size of a value, used to pick an adequate fuel. -/
def PVal.psize : PVal → Nat
  | .vTuple xs => 1 + plistSize xs
  | .vList xs => 1 + plistSize xs
  | .vDict m => 1 + ppairsSize m
  | .vTkc c => 1 + TKC.tsize c
  | _ => 1

/-- Structural size of a value list. -/
def plistSize : List PVal → Nat
  | [] => 0
  | x :: xs => 1 + PVal.psize x + plistSize xs

/-- Structural size of a key-value list. -/
def ppairsSize : List (String × PVal) → Nat
  | [] => 0
  | (_, v) :: xs => 1 + PVal.psize v + ppairsSize xs

/-- Structural size of an engine state. -/
def TKC.tsize : TKC → Nat
  | .mk _ pd cfg _ mw _ => 1 + ppairsSize pd + ppairsSize cfg + PVal.psize mw
end

/-- Python `a == b` with enough fuel for its arguments: every recursion step
of `pyEqF` descends at least one constructor on each side. -/
def pyEq (a b : PVal) : Bool := pyEqF (a.psize + b.psize + 1) a b

/-- Membership of a value in a list of Python strings, Python `x in [s, ...]`:
a non-string never equals a string. -/
def pvIsStrIn (v : PVal) (ss : List String) : Bool :=
  match v with
  | .vStr s => ss.contains s
  | _ => false

/-- Python `a == lit` for a string literal `lit`. -/
def attrIsStr (a : PVal) (s : String) : Bool :=
  match a with
  | .vStr t => t == s
  | _ => false

/-- Python `x in container` for the container kinds the engine uses: key
membership for dicts, elementwise `==` for lists and tuples, substring test
for strings, TypeError otherwise. -/
def pyIn (x container : PVal) : Except PyErr Bool :=
  match container with
  | .vDict m =>
      .ok (match x with
           | .vStr s => amem m s
           | _ => false)
  | .vList xs => .ok (xs.any (fun e => pyEq x e))
  | .vTuple xs => .ok (xs.any (fun e => pyEq x e))
  | .vStr s =>
      (match x with
       | .vStr t => .ok (t.isEmpty || (s.splitOn t).length > 1)
       | _ => .error (.typeError "in requires string as left operand"))
  | _ => .error (.typeError "argument is not a container")

/-- Python subscript `v[k]` for a string key: KeyError when the key is
missing, TypeError when `v` is not a dict. -/
def dictGetP (v : PVal) (k : String) : Except PyErr PVal :=
  match v with
  | .vDict m =>
      (match alookup m k with
       | some w => .ok w
       | none => .error (.keyError k))
  | _ => .error (.typeError "object is not subscriptable")

/-- Python `v[k] = w` on a dict value. -/
def dictSetP (v : PVal) (k : String) (w : PVal) : Except PyErr PVal :=
  match v with
  | .vDict m => .ok (.vDict (aset m k w))
  | _ => .error (.typeError "object does not support item assignment")

/-- Python `len(v)`. -/
def pyLen (v : PVal) : Except PyErr Nat :=
  match v with
  | .vStr s => .ok s.length
  | .vList xs => .ok xs.length
  | .vTuple xs => .ok xs.length
  | .vDict m => .ok m.length
  | _ => .error (.typeError "object has no len")

/-- Python `str(v)` restricted to strings; in the engine this conversion is
only ever applied to values already checked to be strings. -/
def pyStrLen (v : PVal) : Nat :=
  match v with
  | .vStr s => s.length
  | _ => 0

/-- Sequence index `xs[i]`, IndexError out of bounds. -/
def tupleGet (xs : List PVal) (i : Nat) : Except PyErr PVal :=
  match xs[i]? with
  | some v => .ok v
  | none => .error (.indexError "tuple index out of range")

/-- `self.types`: inputtype name to accepted Python run-time type. -/
def typesMap : String → Option PyType
  | "int" => some .tyInt
  | "float" => some .tyFloat
  | "str" => some .tyStr
  | "bits" => some .tyInt
  | "complex" => some .tyComplex
  | "list" => some .tyList
  | "tkc" => some .tyTkc
  | _ => none

/-- `self.attributes`: the recognized parameter attribute names. -/
def attributesList : List String :=
  ["inputtype", "valrange", "initvalue", "widget", "label", "width",
   "widgetattr", "notify", "row", "column", "readonly", "tooltip", "pardef"]

/-- `self.defaults`: default attribute values, in source order. -/
def defaultsList : List (String × PVal) :=
  [("inputtype", .vStr "str"), ("valrange", .vNone), ("initvalue", .vStr ""),
   ("widget", .vNone), ("label", .vStr ""), ("width", .vInt 20),
   ("widgetattr", .vDict []), ("notify", .vNone), ("row", .vInt (-1)),
   ("column", .vInt (-1)), ("readonly", .vBool false), ("tooltip", .vStr ""),
   ("pardef", .vNone)]

/-- `_TKCWidget._WIDGETS_`: the recognized widget class names. -/
def widgetsList : List String :=
  ["TKCSpinbox", "TKCEntry", "TKCListbox", "TKCCheckbox", "TKCRadiobuttons",
   "TKCFlags", "TKCSlider", "TKCColor", "TKCColortable", "TKCList",
   "TKCDialog", "TKCMask"]

/-- Hexadecimal digit test, the character class 0-9a-fA-F. -/
def isHexDigitCh (c : Char) : Bool :=
  c.isDigit || (c ≥ Char.ofNat 97 && c ≤ Char.ofNat 102) ||
  (c ≥ Char.ofNat 65 && c ≤ Char.ofNat 70)

/-- The anchored pattern of six hex digits after a hash sign used for color
strings, Python regular expression caret hash paren 0-9a-fA-F brace 2 close
paren brace 3 dollar. -/
def isHexColor (s : String) : Bool :=
  match s.toList with
  | '#' :: rest => rest.length == 6 && rest.all isHexDigitCh
  | _ => false

/-- Python `a >= b` for numbers, TypeError otherwise. -/
def pyGe (a b : PVal) : Except PyErr Bool :=
  match a.asNum, b.asNum with
  | some x, some y => .ok (decide (y ≤ x))
  | _, _ => .error (.typeError "unorderable types")

/-- Python `max(a, b)`: the second argument when it is greater. -/
def pyMax (a b : PVal) : Except PyErr PVal := do
  let gt ← pyGt b a
  if gt then .ok b else .ok a

/-- `TKConfigure._validateGroupId`: raise ValueError for an unknown group or
an unknown parameter id. -/
def validateGroupId (c : TKC) (group id : Option String) : Option PyErr :=
  let gErr : Option PyErr :=
    match group with
    | some g =>
        if amem c.parDef g then none
        else some (.valueError "Unknown parameter group")
    | none => none
  match gErr with
  | some e => some e
  | none =>
    match id with
    | some i =>
        if (slookup c.idList i).isSome then none
        else some (.valueError "Unknown parameter id")
    | none => none

/-- `TKConfigure.getIdDefinition`: the attribute dict of one parameter,
found through the id-to-group map. -/
def getIdDefinition (c : TKC) (id : String) : Except PyErr PVal :=
  match validateGroupId c none (some id) with
  | some e => .error e
  | none =>
    match slookup c.idList id with
    | none => .error (.keyError id)
    | some g =>
      match alookup c.parDef g with
      | none => .error (.keyError g)
      | some gd => dictGetP gd id

/-- `TKConfigure.getGroupDefinition`. -/
def getGroupDefinition (c : TKC) (group : String) : Except PyErr PVal :=
  match validateGroupId c (some group) none with
  | some e => .error e
  | none =>
    match alookup c.parDef group with
    | none => .error (.keyError group)
    | some gd => .ok gd

/-- `TKConfigure.getPar` with an attribute name (the source also accepts
attribute None and then returns the whole dict; the engine itself always
passes a name): the stored attribute, or its default when absent. -/
def getPar (c : TKC) (group id attr : String) : Except PyErr PVal :=
  match validateGroupId c (some group) (some id) with
  | some e => .error e
  | none =>
    if !(attributesList.contains attr) then
      .error (.keyError "Unknown attribute")
    else do
      let gd ← (match alookup c.parDef group with
                | some gd => Except.ok gd
                | none => Except.error (PyErr.keyError group))
      let pc ← dictGetP gd id
      let has ← (match pc with
                 | .vDict m => Except.ok (amem m attr)
                 | _ => Except.error (PyErr.typeError "argument is not a container"))
      if has then dictGetP pc attr
      else
        (match alookup defaultsList attr with
         | some d => .ok d
         | none => .error (.keyError attr))

/-- `TKConfigure._validateParDef`: structural validation of one parameter
definition; reads only `self.maxWidth` from the state and returns its
updated value (its only state effect, happening after every check passed). -/
def validateParDef (maxWidth : PVal) (parCfg : PVal) : Except PyErr PVal := do
  let inputtype ← dictGetP parCfg "inputtype"
  let initvalue ← dictGetP parCfg "initvalue"
  let valrange ← dictGetP parCfg "valrange"
  -- Validate the inputtype
  let itOk := (match inputtype with
               | .vStr s => (typesMap s).isSome
               | _ => false)
  if !itOk then .error (.typeError "Unknown inputtype for parameter")
  else do
  -- Validate attributes
  let keys := (match parCfg with
               | .vDict m => m.map Prod.fst
               | _ => [])
  if !(keys.all (fun a => attributesList.contains a)) then
    .error (.valueError "Unknown attribute for parameter")
  else do
  -- inputtype tkc requires a parameter definition
  let _ ← (if attrIsStr inputtype "tkc" then do
             let pardef ← dictGetP parCfg "pardef"
             if pardef.pyType == .tyNone then
               Except.error (PyErr.valueError "inputtype tkc requires attribute pardef")
             else if pardef.pyType != .tyDict then
               Except.error (PyErr.valueError "attribute pardef must be of type dict")
             else Except.ok PVal.vNone
           else Except.ok PVal.vNone)
  -- initvalue must match inputtype
  let ty ← (match inputtype with
            | .vStr s => (match typesMap s with
                          | some t => Except.ok t
                          | none => Except.error (PyErr.keyError s))
            | _ => Except.error (PyErr.keyError "inputtype"))
  if initvalue.pyType != ty then
    .error (.typeError "Type of initvalue does not match inputtype")
  else do
  -- Validate widget type
  let w ← dictGetP parCfg "widget"
  if !(pvIsStrIn w widgetsList) then
    .error (.valueError "Unknown widget type")
  else do
  -- Validate valrange / initvalue / inputtype
  let _ ← (match valrange with
    | .vTuple vs =>
        if (vs.length < 2 || vs.length > 3) && !(attrIsStr inputtype "str") then
          Except.error (PyErr.valueError "valrange tuple must have 2 or 3 values")
        else if pvIsStrIn inputtype ["int", "float", "complex"] then do
          let a ← tupleGet vs 0
          let lt ← pyLt initvalue a
          if lt then Except.error (PyErr.valueError "initvalue out of valrange")
          else do
            let b ← tupleGet vs 1
            let gt ← pyGt initvalue b
            if gt then Except.error (PyErr.valueError "initvalue out of valrange")
            else Except.ok PVal.vNone
        else if attrIsStr inputtype "str" then
          (if vs.length == 2 then do
             let l ← pyLen initvalue
             let a ← tupleGet vs 0
             let lt ← pyLt (.vInt l) a
             if lt then
               Except.error (PyErr.valueError "Length of initvalue string out of valrange")
             else do
               let b ← tupleGet vs 1
               let gt ← pyGt (.vInt l) b
               if gt then
                 Except.error (PyErr.valueError "Length of initvalue string out of valrange")
               else Except.ok PVal.vNone
           else if vs.length == 1 then
             (match initvalue with
              | .vStr s =>
                  if !(isHexColor s) then
                    Except.error (PyErr.valueError "initvalue does not match regular expression")
                  else Except.ok PVal.vNone
              | _ => Except.error (PyErr.typeError "expected string or bytes-like object"))
           else Except.ok PVal.vNone)
        else if attrIsStr inputtype "bits" then
          Except.error (PyErr.typeError "Unsupported inputtype for valrange tuple")
        else Except.ok PVal.vNone
    | .vList vs =>
        if vs.length == 0 then
          Except.error (PyErr.valueError "valrange list must not be empty")
        else if attrIsStr inputtype "str" && !(vs.any (fun e => pyEq initvalue e)) then
          Except.error (PyErr.valueError "initvalue is not part of valrange")
        else if attrIsStr inputtype "int" then do
          let lt ← pyLt initvalue (.vInt 0)
          if lt then Except.error (PyErr.indexError "initvalue out of valrange")
          else do
            let gt ← pyGt initvalue (.vInt vs.length)
            if gt then Except.error (PyErr.indexError "initvalue out of valrange")
            else Except.ok PVal.vNone
        else if attrIsStr inputtype "bits" then do
          let lt ← pyLt initvalue (.vInt 0)
          if lt then Except.error (PyErr.indexError "initvalue out of valrange")
          else do
            let ge ← pyGe initvalue (.vInt ((2 : Int) ^ vs.length))
            if ge then Except.error (PyErr.indexError "initvalue out of valrange")
            else Except.ok PVal.vNone
        else if pvIsStrIn inputtype ["float", "complex"] then
          Except.error (PyErr.typeError "Unsupported inputtype for valrange list")
        else Except.ok PVal.vNone
    | _ => Except.ok PVal.vNone)
  -- width contributes to self.maxWidth
  let hasW := (match parCfg with
               | .vDict m => amem m "width"
               | _ => false)
  if hasW then do
    let w ← dictGetP parCfg "width"
    pyMax maxWidth w
  else .ok maxWidth

/-- The run-time type check stanza of `TKConfigure._validateValue`: a dict
value demands inputtype tkc, any other value must have exactly the run-time
type registered for the declared inputtype. -/
def vvTypeCheck (parCfg value : PVal) : Except PyErr PVal := do
  let _ ← (if value.pyType == .tyDict then do
             let it ← dictGetP parCfg "inputtype"
             if !(attrIsStr it "tkc") then
               Except.error (PyErr.typeError "Value of type dict requires inputtype tkc")
             else Except.ok PVal.vNone
           else Except.ok PVal.vNone)
  if value.pyType != .tyDict then do
    let it ← dictGetP parCfg "inputtype"
    let ty ← (match it with
              | .vStr s => (match typesMap s with
                            | some t => Except.ok t
                            | none => Except.error (PyErr.keyError s))
              | _ => Except.error (PyErr.keyError "inputtype"))
    if value.pyType != ty then
      Except.error (PyErr.typeError "Type of value does not match input type")
    else Except.ok PVal.vNone
  else Except.ok PVal.vNone

/-- The `bCast` coercion stanza of `TKConfigure._validateValue`, transcribed
exactly as in the source, where it sits after the strict type check above
(`vvCast_noop` below proves it can therefore never fire). -/
def vvCast (parCfg value : PVal) (bCast : Bool) : Except PyErr PVal := do
  let it ← dictGetP parCfg "inputtype"
  .ok (if bCast then
         if value.pyType == .tyInt && attrIsStr it "float" then
           (match value with
            | .vInt n => PVal.vFloat (n : Rat)
            | v => v)
         else if value.pyType == .tyFloat && attrIsStr it "int" then
           (match value with
            | .vFloat q => PVal.vInt (q.num / (q.den : Int))
            | v => v)
         else if (value.pyType == .tyInt || value.pyType == .tyFloat) &&
                 attrIsStr it "complex" then
           (match value with
            | .vInt n => PVal.vComplex (n : Rat) 0
            | .vFloat q => PVal.vComplex q 0
            | v => v)
         else value
       else value)

/-- The valrange stanza of `TKConfigure._validateValue`, applied to the
value the function will return. -/
def vvRange (parCfg value : PVal) : Except PyErr PVal := do
  let it ← dictGetP parCfg "inputtype"
  let vr ← dictGetP parCfg "valrange"
  (match vr with
    | .vTuple vs =>
        if pvIsStrIn it ["int", "float", "complex"] then do
          let a ← tupleGet vs 0
          let lt ← pyLt value a
          if lt then Except.error (PyErr.valueError "Value not in valrange")
          else do
            let b ← tupleGet vs 1
            let gt ← pyGt value b
            if gt then Except.error (PyErr.valueError "Value not in valrange")
            else Except.ok PVal.vNone
        else if attrIsStr it "str" then
          (if vs.length == 2 then do
             let a ← tupleGet vs 0
             let lt ← pyLt (.vInt (pyStrLen value)) a
             if lt then Except.error (PyErr.valueError "String length out of valrange")
             else do
               let b ← tupleGet vs 1
               let gt ← pyGt (.vInt (pyStrLen value)) b
               if gt then Except.error (PyErr.valueError "String length out of valrange")
               else Except.ok PVal.vNone
           -- source tests type(valrange) is str although valrange is a
           -- tuple in this branch, so the pattern test can never run
           else if vs.length == 1 && (PVal.vTuple vs).pyType == .tyStr then
             (match value with
              | .vStr s =>
                  if !(isHexColor s) then
                    Except.error (PyErr.valueError "String does not match regular expression")
                  else Except.ok PVal.vNone
              | _ => Except.error (PyErr.typeError "expected string or bytes-like object"))
           else Except.ok PVal.vNone)
        else Except.ok PVal.vNone
    | .vList vs => do
        let _ ← (if value.pyType == .tyStr && !(vs.any (fun e => pyEq value e)) then
                   Except.error (PyErr.valueError "Value not in valrange list")
                 else Except.ok PVal.vNone)
        (match value with
         | .vInt n =>
             if attrIsStr it "int" && (n < 0 || n ≥ (vs.length : Int)) then
               Except.error (PyErr.indexError "Value is not a valid valrange index")
             else if attrIsStr it "bits" && (n < 0 || n ≥ (2 : Int) ^ vs.length) then
               Except.error (PyErr.valueError "Value is not valid for valrange bitmask")
             else Except.ok PVal.vNone
         | _ => Except.ok PVal.vNone)
    | _ => Except.ok PVal.vNone)

/-- `TKConfigure._validateValue`: type check, coercion block and range check
in source order; pure, returns the value it would store. -/
def validateValue (c : TKC) (id : String) (value : PVal) (bCast : Bool) :
    Except PyErr PVal := do
  let parCfg ← getIdDefinition c id
  let _ ← vvTypeCheck parCfg value
  let value ← vvCast parCfg value bCast
  let _ ← vvRange parCfg value
  .ok value

/-- `TKConfigure._validateConfig`: validate a whole value dictionary, in
simple or full form; pure (validation only). -/
def validateConfig (c : TKC) (cfg : List (String × PVal)) (simple : Bool) :
    Option PyErr :=
  match cfg with
  | [] => none
  | (id, v) :: rest =>
    match validateGroupId c none (some id) with
    | some e => some e
    | none =>
      let r : Except PyErr PVal :=
        if simple then validateValue c id v false
        else do
          let hasVal ← pyIn (.vStr "value") v
          if !hasVal then Except.error (.valueError "Missing value for parameter")
          else do
            let _ ← (match v with
                     | .vDict m =>
                         if m.all (fun kv => kv.1 == "value" || kv.1 == "oldValue") then
                           Except.ok PVal.vNone
                         else Except.error (PyErr.keyError "Attribute not allowed for parameter")
                     | _ => Except.error (PyErr.keyError "Attribute not allowed for parameter"))
            let vv ← dictGetP v "value"
            validateValue c id vv false
      match r with
      | .error e => some e
      | .ok _ => validateConfig c rest simple

/-- `TKConfigure.syncWidget` for a single id: pushing the engine value into a
bound widget is an external effect with no engine-state change, but an id
without a bound widget raises KeyError; an id that is bound but has no value
entry also raises KeyError. -/
def syncWidget (c : TKC) (id : Option String) : TKC × Option PyErr :=
  match id with
  | none => (c, none)
  | some i =>
      if !(c.widgets.contains i) then
        (c, some (.keyError "Widget for parameter not found"))
      else if amem c.config i then (c, none)
      else (c, some (.keyError "Unknown parameter id"))

/-- The stamping condition of `TKConfigure.set`: id not in `self.config`,
or no value key in its entry, or `init` (with the Python short-circuit
evaluation, so a malformed entry raises TypeError from the `in` test). -/
def setCond (entryOpt : Option PVal) (init : Bool) : Except PyErr Bool :=
  match entryOpt with
  | none => .ok true
  | some entry => do
      let hasVal ← pyIn (.vStr "value") entry
      .ok (!hasVal || init)

/-- `TKConfigure.set`: validate (with cast enabled), then store the value,
stamping `oldValue` as the source does; on a validation error the state is
returned untouched, exactly like the Python exception. -/
def set (c : TKC) (id : String) (value : PVal) (sync init : Bool) :
    TKC × Option PyErr :=
  match validateValue c id value true with
  | .error e => (c, some e)
  | .ok newValue =>
    let entryOpt := alookup c.config id
    match setCond entryOpt init with
    | .error e => (c, some e)
    | .ok true =>
        let c1 := c.withConfig
          (aupdate c.config [(id, .vDict [("oldValue", newValue), ("value", newValue)])])
        if sync && c1.widgets.contains id then syncWidget c1 (some id) else (c1, none)
    | .ok false =>
        let curValue := (match entryOpt with
                         | some (.vDict m) => (alookup m "value").getD .vNone
                         | _ => PVal.vNone)
        if !(pyEq newValue curValue) then
          let c1 := c.withConfig
            (aupdate c.config [(id, .vDict [("oldValue", curValue), ("value", newValue)])])
          if sync && c1.widgets.contains id then syncWidget c1 (some id) else (c1, none)
        else
          if sync && c.widgets.contains id then syncWidget c (some id) else (c, none)

/-- `TKConfigure.setValues`: apply `set` per keyword argument; a failure
stops the loop but keeps the assignments already made. -/
def setValues (c : TKC) (kwargs : List (String × PVal)) (sync : Bool) :
    TKC × Option PyErr :=
  kwargs.foldl
    (fun acc kv =>
      match acc with
      | (c', none) => set c' kv.1 kv.2 sync false
      | st => st)
    (c, none)

/-- The guard of `TKConfigure.undo` for one id that has a config entry:
the group filter matches and the entry has an oldValue key (Python
short-circuit order). -/
def undoCond (c : TKC) (groups : List String) (id : String) (entry : PVal) :
    Except PyErr Bool := do
  let ing ← (if groups.isEmpty then Except.ok true
             else
               match slookup c.idList id with
               | some g => Except.ok (groups.contains g)
               | none => Except.error (PyErr.keyError id))
  if ing then pyIn (.vStr "oldValue") entry else .ok false

/-- `TKConfigure.undo` for one id: restore value from oldValue when the id
has a config entry, matches the group filter and has an oldValue key. -/
def undoOne (c : TKC) (groups : List String) (id : String) : TKC × Option PyErr :=
  match alookup c.config id with
  | none => (c, none)
  | some entry =>
    match undoCond c groups id entry with
    | .error e => (c, some e)
    | .ok false => (c, none)
    | .ok true =>
      match dictGetP entry "oldValue" with
      | .error e => (c, some e)
      | .ok ov =>
        match dictSetP entry "value" ov with
        | .error e => (c, some e)
        | .ok entry2 => (c.withConfig (aset c.config id entry2), none)

/-- `TKConfigure.undo`: without an id, fold `undoOne` over every config id
(an exception stops the loop, keeping earlier restores). -/
def undo (c : TKC) (groups : List String) (id : Option String) :
    TKC × Option PyErr :=
  match id with
  | some i => undoOne c groups i
  | none =>
    (c.config.map Prod.fst).foldl
      (fun acc i =>
        match acc with
        | (c', none) => undoOne c' groups i
        | st => st)
      (c, none)

/-- The condition of `TKConfigure.apply` for one id.  The source condition
parses as `(id in config and groups == []) or (idList[id] in groups and
value-key in config[id])`, so with a nonempty group filter an unknown id
raises KeyError. -/
def applyCond (c : TKC) (groups : List String) (id : String) :
    Except PyErr Bool :=
  if (alookup c.config id).isSome && groups.isEmpty then .ok true
  else do
    let g ← (match slookup c.idList id with
             | some g => Except.ok g
             | none => Except.error (PyErr.keyError id))
    if !(groups.contains g) then .ok false
    else
      match alookup c.config id with
      | none => Except.error (PyErr.keyError id)
      | some entry => pyIn (.vStr "value") entry

/-- `TKConfigure.apply` for one id.  With `sync` and a bound widget the
source first pulls the live widget value (`widget._update`), an external UI
interaction out of the embedding; the theorems below therefore consider
states without bound widgets, where the source skips that call. -/
def applyOne (c : TKC) (groups : List String) (id : String) (_sync : Bool) :
    TKC × Option PyErr :=
  match applyCond c groups id with
  | .error e => (c, some e)
  | .ok false => (c, none)
  | .ok true =>
    match alookup c.config id with
    | none => (c, some (.keyError id))
    | some entry =>
      match dictGetP entry "value" with
      | .error e => (c, some e)
      | .ok v =>
        match dictSetP entry "oldValue" v with
        | .error e => (c, some e)
        | .ok entry2 => (c.withConfig (aset c.config id entry2), none)

/-- `TKConfigure.apply`: without an id, fold `applyOne` over every config id;
the recursive call in the source uses the default `sync=True`. -/
def apply (c : TKC) (groups : List String) (id : Option String) (sync : Bool) :
    TKC × Option PyErr :=
  match id with
  | some i => applyOne c groups i sync
  | none =>
    (c.config.map Prod.fst).foldl
      (fun acc i =>
        match acc with
        | (c', none) => applyOne c' groups i true
        | st => st)
      (c, none)

/-- `TKConfigure.get`: current value, or the schema default when unset and
`returndefault` holds.  With `sync` and a bound widget the source first
pulls the live widget value; out of scope here, see `applyOne`. -/
def get (c : TKC) (id : String) (returndefault _sync : Bool) : Except PyErr PVal :=
  match validateGroupId c none (some id) with
  | some e => .error e
  | none =>
    let hasVal : Except PyErr Bool :=
      match alookup c.config id with
      | none => .ok false
      | some entry => pyIn (.vStr "value") entry
    match hasVal with
    | .error e => .error e
    | .ok true =>
        (match alookup c.config id with
         | some entry => dictGetP entry "value"
         | none => .error (.keyError id))
    | .ok false =>
        if returndefault then
          match slookup c.idList id with
          | some g => getPar c g id "initvalue"
          | none => .error (.keyError id)
        else .error (.valueError "No value assigned to parameter")

/-- `TKConfigure.setDefaultValue`: validate and assign the initvalue. -/
def setDefaultValue (c : TKC) (group id : String) : TKC × Option PyErr :=
  match validateGroupId c (some group) (some id) with
  | some e => (c, some e)
  | none =>
    match getPar c group id "initvalue" with
    | .error e => (c, some e)
    | .ok initvalue =>
      match validateValue c id initvalue true with
      | .error e => (c, some e)
      | .ok nInit => set c id nInit false false

/-- `TKConfigure.resetConfigValues`: reset either every parameter of the
current definition or only those of a supplied definition. -/
def resetConfigValues (c : TKC) (pd : Option (List (String × PVal))) :
    TKC × Option PyErr :=
  (pd.getD c.parDef).foldl
    (fun acc gkv =>
      match acc with
      | (c', none) =>
        (match gkv.2 with
         | .vDict m =>
             m.foldl
               (fun acc2 kv =>
                 match acc2 with
                 | (c'', none) => setDefaultValue c'' gkv.1 kv.1
                 | st => st)
               (c', none)
         | _ => (c', some (.typeError "object is not iterable")))
      | st => st)
    (c, none)

/-- `TKConfigure.getConfig(simple=True)` over a config dict: id mapped to
its raw value; KeyError when an entry has no value key. -/
def getConfigSimpleItems : List (String × PVal) → Except PyErr (List (String × PVal))
  | [] => .ok []
  | (id, entry) :: rest => do
      let v ← dictGetP entry "value"
      let r ← getConfigSimpleItems rest
      .ok ((id, v) :: r)

/-- `TKConfigure.getConfig`: the simple id-to-value form or the raw store. -/
def getConfig (c : TKC) (simple : Bool) : Except PyErr (List (String × PVal)) :=
  if simple then getConfigSimpleItems c.config else .ok c.config

/-- Python `complex(a, b)`: the result is `a + b*1j`, so for real arguments
it is simply the pair, while complex arguments mix real and imaginary parts;
anything else raises TypeError. -/
def pyComplex (a b : PVal) : Except PyErr PVal :=
  match a, b with
  | .vComplex r1 i1, .vComplex r2 i2 => .ok (.vComplex (r1 - i2) (i1 + r2))
  | .vComplex r1 i1, v =>
      (match v.asNum with
       | some q => .ok (.vComplex r1 (i1 + q))
       | none => .error (.typeError "complex arguments must be numbers"))
  | v, .vComplex r2 i2 =>
      (match v.asNum with
       | some q => .ok (.vComplex (q - i2) r2)
       | none => .error (.typeError "complex arguments must be numbers"))
  | v, w =>
      (match v.asNum, w.asNum with
       | some q1, some q2 => .ok (.vComplex q1 q2)
       | _, _ => .error (.typeError "complex arguments must be numbers"))

mutual
/-- `json.dumps` with `TKConfigure._encodeJSON` as default encoder, at the
level of the JSON value tree: complex becomes the real/imag record, a nested
TKConfigure becomes its own simple mapping; fueled for the recursion through
nested engines (the source recursion always terminates on finite data). -/
def encodeJSON : Nat → PVal → Except PyErr JVal
  | 0, _ => .error (.typeError "recursion limit exceeded")
  | fuel + 1, v =>
    match v with
    | .vInt n => .ok (.jInt n)
    | .vFloat q => .ok (.jFloat q)
    | .vBool b => .ok (.jBool b)
    | .vStr s => .ok (.jStr s)
    | .vNone => .ok .jNull
    | .vTuple xs => do
        let ys ← encodeListJ fuel xs
        .ok (.jArr ys)
    | .vList xs => do
        let ys ← encodeListJ fuel xs
        .ok (.jArr ys)
    | .vDict m => do
        let ys ← encodePairsJ fuel m
        .ok (.jObj ys)
    | .vComplex r i => .ok (.jObj [("real", .jFloat r), ("imag", .jFloat i)])
    | .vCallback _ => .error (.typeError "Cannot serialize object")
    | .vTkc cc => do
        let simpleCfg ← getConfigSimpleItems cc.config
        let ys ← encodePairsJ fuel simpleCfg
        .ok (.jObj ys)

/-- Encode each element of a sequence. -/
def encodeListJ : Nat → List PVal → Except PyErr (List JVal)
  | 0, _ => .error (.typeError "recursion limit exceeded")
  | _, [] => .ok []
  | fuel + 1, x :: xs => do
      let y ← encodeJSON fuel x
      let ys ← encodeListJ fuel xs
      .ok (y :: ys)

/-- Encode each value of a string-keyed mapping. -/
def encodePairsJ : Nat → List (String × PVal) → Except PyErr (List (String × JVal))
  | 0, _ => .error (.typeError "recursion limit exceeded")
  | _, [] => .ok []
  | fuel + 1, (k, x) :: xs => do
      let y ← encodeJSON fuel x
      let ys ← encodePairsJ fuel xs
      .ok ((k, y) :: ys)
end

mutual
/-- `json.loads` with `TKConfigure._decodeJSON` as object hook: the hook runs
bottom-up on every object and turns an exactly-two-key real/imag record into
a complex number; every other object passes through as a dict.  Fueled like
the encoder; any fuel at least the tree depth computes the result. -/
def decodeJSON : Nat → JVal → Except PyErr PVal
  | 0, _ => .error (.typeError "recursion limit exceeded")
  | fuel + 1, j =>
    match j with
    | .jInt n => .ok (.vInt n)
    | .jFloat q => .ok (.vFloat q)
    | .jBool b => .ok (.vBool b)
    | .jStr s => .ok (.vStr s)
    | .jNull => .ok .vNone
    | .jArr xs => do
        let ys ← decodeListJ fuel xs
        .ok (.vList ys)
    | .jObj m => do
        let d ← decodePairsJ fuel m
        if d.length == 2 && amem d "real" && amem d "imag" then
          pyComplex ((alookup d "real").getD .vNone) ((alookup d "imag").getD .vNone)
        else .ok (.vDict d)

/-- Decode each element of a JSON array. -/
def decodeListJ : Nat → List JVal → Except PyErr (List PVal)
  | 0, _ => .error (.typeError "recursion limit exceeded")
  | _, [] => .ok []
  | fuel + 1, x :: xs => do
      let y ← decodeJSON fuel x
      let ys ← decodeListJ fuel xs
      .ok (y :: ys)

/-- Decode each value of a JSON object. -/
def decodePairsJ : Nat → List (String × JVal) → Except PyErr (List (String × PVal))
  | 0, _ => .error (.typeError "recursion limit exceeded")
  | _, [] => .ok []
  | fuel + 1, (k, x) :: xs => do
      let y ← decodeJSON fuel x
      let ys ← decodePairsJ fuel xs
      .ok ((k, y) :: ys)
end

mutual
/-- `TKConfigure.setConfig`: validate, then apply the values; in simple mode
each id goes through `set(init=True)` except nested-config ids, which
recurse into the stored child engine and then call `syncWidget`; any error in
the per-id loop is wrapped in ValueError, keeping the assignments already
made.  Fueled for the recursion into nested engines. -/
def setConfig : Nat → TKC → List (String × PVal) → Bool → Bool → Bool → Bool → Bool →
    TKC × Option PyErr
  | 0, c, _, _, _, _, _, _ => (c, some (.valueError "recursion limit exceeded"))
  | fuel + 1, c, cfg, simple, checkmissing, reset, clear, sync =>
    match validateConfig c cfg simple with
    | some e => (c, some e)
    | none =>
      let c := if clear then c.withConfig [] else c
      let resetRes := if reset then resetConfigValues c none else (c, none)
      match resetRes with
      | (c, some e) => (c, some e)
      | (c, none) =>
        let applied :=
          if simple then setConfigItems fuel c cfg sync
          else (c.withConfig (aupdate c.config cfg), none)
        match applied with
        | (c, some e) => (c, some e)
        | (c, none) =>
          if checkmissing then
            match c.idList.find? (fun kv => !(amem c.config kv.1)) with
            | some _ => (c, some (.keyError "Missing id in configuration values"))
            | none => (c, none)
          else (c, none)

/-- One iteration of the `setConfig(simple=True)` loop; the try/except in
the source re-raises any exception as ValueError, keeping the mutations
made so far. -/
def setConfigItem : Nat → TKC → String → PVal → Bool → TKC × Option PyErr
  | 0, c, _, _, _ => (c, some (.valueError "recursion limit exceeded"))
  | fuel + 1, c, id, value, sync =>
    let wrap : PyErr := .valueError "Error in setConfig"
    match getIdDefinition c id with
    | .error _ => (c, some wrap)
    | .ok parCfg =>
      match dictGetP parCfg "inputtype" with
      | .error _ => (c, some wrap)
      | .ok it =>
        if attrIsStr it "tkc" then
          if value.pyType == .tyDict then
            match alookup c.config id with
            | none => (c, some wrap)
            | some entry =>
              match dictGetP entry "value" with
              | .error _ => (c, some wrap)
              | .ok stored =>
                (match stored, value with
                 | .vTkc child, .vDict m =>
                     let childRes := setConfig fuel child m true false false false false
                     -- the child object is mutated in place even when the
                     -- nested call raises
                     let entry2 := (match dictSetP entry "value" (.vTkc childRes.1) with
                                    | .ok e2 => e2
                                    | .error _ => entry)
                     let c2 := c.withConfig (aset c.config id entry2)
                     (match childRes.2 with
                      | some _ => (c2, some wrap)
                      | none =>
                        let swRes := syncWidget c2 (some id)
                        (match swRes.2 with
                         | some _ => (swRes.1, some wrap)
                         | none => (swRes.1, none)))
                 | _, _ => (c, some wrap))
          else (c, some wrap)
        else
          let setRes := set c id value sync true
          (match setRes.2 with
           | some _ => (setRes.1, some wrap)
           | none => (setRes.1, none))

/-- The per-id loop of `setConfig(simple=True)`. -/
def setConfigItems : Nat → TKC → List (String × PVal) → Bool → TKC × Option PyErr
  | 0, c, _, _ => (c, some (.valueError "recursion limit exceeded"))
  | _, c, [], _ => (c, none)
  | fuel + 1, c, (id, value) :: rest, sync =>
    match setConfigItem fuel c id value sync with
    | (c2, none) => setConfigItems fuel c2 rest sync
    | st => st
end

/-- `TKConfigure.getJSON` at the JSON-tree level: the simple config mapping
encoded with the special complex / nested-config handling. -/
def getJSONv (fuel : Nat) (c : TKC) : Except PyErr JVal := do
  let items ← getConfigSimpleItems c.config
  let ys ← encodePairsJ fuel items
  .ok (.jObj ys)

/-- `TKConfigure.setJSON` at the JSON-tree level: decode with the object
hook, then `setConfig(simple=True)`. -/
def setJSONv (fuel : Nat) (c : TKC) (j : JVal) : TKC × Option PyErr :=
  match decodeJSON fuel j with
  | .error e => (c, some e)
  | .ok (.vDict m) => setConfig fuel c m true false false false false
  | .ok _ => (c, some (.typeError "object is not iterable"))

/-- `getJSON` followed by `setJSON` on the same instance: the round trip of
claim C4. -/
def roundTripSimple (fuel : Nat) (c : TKC) : TKC × Option PyErr :=
  match getJSONv fuel c with
  | .error e => (c, some e)
  | .ok j => setJSONv fuel c j

/-- The per-parameter half of `updateParameterDefinition`: register the id
(before any validation, as the source does), fill missing attributes from
the defaults, then `_validateParDef`; returns the grown id list, the grown
maxWidth, the filled definitions and the first error. -/
def updParDefItems (group : String) :
    List (String × String) → PVal → List (String × PVal) →
    List (String × String) × PVal × List (String × PVal) × Option PyErr
  | il, mw, [] => (il, mw, [], none)
  | il, mw, (id, parCfg) :: rest =>
    if (slookup il id).isSome then
      (il, mw, [], some (.keyError "Duplicate parameter id"))
    else
      let il2 := il ++ [(id, group)]
      match parCfg with
      | .vDict m =>
        let filled := defaultsList.foldl
          (fun acc kv => if amem acc kv.1 then acc else acc ++ [(kv.1, kv.2)]) m
        match validateParDef mw (.vDict filled) with
        | .error e => (il2, mw, [], some e)
        | .ok mw2 =>
          match updParDefItems group il2 mw2 rest with
          | (il3, mw3, filledRest, err) => (il3, mw3, (id, .vDict filled) :: filledRest, err)
      | _ => (il2, mw, [], some (.typeError "argument is not a container"))

/-- The group loop of `updateParameterDefinition`. -/
def updParDefGroups :
    List (String × String) → PVal → List (String × PVal) →
    List (String × String) × PVal × List (String × PVal) × Option PyErr
  | il, mw, [] => (il, mw, [], none)
  | il, mw, (g, gv) :: rest =>
    match gv with
    | .vDict ids =>
      match updParDefItems g il mw ids with
      | (il2, mw2, filledIds, some e) => (il2, mw2, [(g, .vDict filledIds)], some e)
      | (il2, mw2, filledIds, none) =>
        match updParDefGroups il2 mw2 rest with
        | (il3, mw3, fg, err) => (il3, mw3, (g, .vDict filledIds) :: fg, err)
    | _ => (il, mw, [], some (.typeError "object is not iterable"))

/-- `TKConfigure.updateParameterDefinition`: ids are registered and defaults
filled while validating; only after the whole loop succeeds are the
definitions stored and the values initialized (from defaults, or from a
supplied config after full validation). -/
def updateParameterDefinition (fuel : Nat) (c : TKC)
    (pd : List (String × PVal)) (cfg : Option (List (String × PVal))) :
    TKC × Option PyErr :=
  match updParDefGroups c.idList c.maxWidth pd with
  | (il, mw, filled, err) =>
    let c1 := (c.withIdList il).withMaxWidth mw
    match err with
    | some e => (c1, some e)
    | none =>
      let c2 := c1.withParDef (aupdate c1.parDef filled)
      match cfg with
      | none => resetConfigValues c2 (some filled)
      | some config =>
        match validateConfig c2 config false with
        | some e => (c2, some e)
        | none => setConfig fuel c2 config false false false false false

/-- `TKConfigure.setParameterDefinition`: clear the registry, then install. -/
def setParameterDefinition (fuel : Nat) (c : TKC)
    (pd : Option (List (String × PVal))) (cfg : Option (List (String × PVal))) :
    TKC × Option PyErr :=
  let c1 := ((c.withIdList []).withParDef []).withConfig []
  match pd with
  | none => (c1, none)
  | some p => updateParameterDefinition fuel c1 p cfg

/-- `TKConfigure.__init__` for the engine core: fresh state, then
`setParameterDefinition`. -/
def mkTKConfigure (fuel : Nat)
    (pd cfg : Option (List (String × PVal))) : TKC × Option PyErr :=
  setParameterDefinition fuel (.mk [] [] [] [] (.vInt 0) none) pd cfg

/-- `TKConfigure._onChange`, the UI-facing update path, with an event trace:
the commit of the new value into the store, then the per-parameter notify
callback, then the global notifyChange callback. -/
def onChange (c : TKC) (id : String) (value : PVal) :
    TKC × Option PyErr × List Ev :=
  if (slookup c.idList id).isNone then (c, none, [])
  else
    let stage1 : TKC × Option PyErr × PVal × List Ev :=
      if value.pyType != .tyNone then
        match get c id false false with
        | .error e => (c, some e, PVal.vNone, [])
        | .ok old =>
          match set c id value false false with
          | (c', some e) => (c', some e, old, [])
          | (c', none) => (c', none, old, [Ev.commit id value])
      else (c, none, PVal.vNone, [])
    match stage1 with
    | (c1, some e, _, evs1) => (c1, some e, evs1)
    | (c1, none, old, evs1) =>
      match getIdDefinition c1 id with
      | .error e => (c1, some e, evs1)
      | .ok parCfg =>
        let hasNotify := (match parCfg with
                          | .vDict m => amem m "notify"
                          | _ => false)
        let nt := (match parCfg with
                   | .vDict m => (alookup m "notify").getD .vNone
                   | _ => PVal.vNone)
        let r2 : Except PyErr (List Ev) :=
          if hasNotify && nt.pyType != .tyNone then
            match nt with
            | .vCallback t => .ok [Ev.notifyEv t old value]
            | _ => .error (.typeError "object is not callable")
          else .ok []
        match r2 with
        | .error e => (c1, some e, evs1)
        | .ok evs2 =>
          let evs3 := (match c1.notifyChange with
                       | some _ => [Ev.notifyChangeEv id old value]
                       | none => [])
          (c1, none, evs1 ++ evs2 ++ evs3)

/-! ## Infrastructure lemmas -/

theorem alookup_aset_self (l : List (String × PVal)) (k : String) (v : PVal) :
    alookup (aset l k v) k = some v := by
  induction l with
  | nil => simp [aset, alookup]
  | cons hd tl ih =>
    by_cases h : hd.1 = k
    · simp [aset, alookup, h]
    · simp [aset, alookup, h, ih]

theorem alookup_aset_ne (l : List (String × PVal)) (k k' : String) (v : PVal)
    (h : k' ≠ k) : alookup (aset l k v) k' = alookup l k' := by
  induction l with
  | nil => simp [aset, alookup, Ne.symm h]
  | cons hd tl ih =>
    by_cases hh : hd.1 = k
    · subst hh
      simp only [aset, beq_self_eq_true, if_true, alookup]
      have hne : (hd.1 == k') = false := by
        simp [Ne.symm h]
      simp [hne]
    · simp only [aset, beq_iff_eq, hh, if_false, alookup]
      by_cases h2 : hd.1 = k'
      · simp [h2]
      · simp [h2, ih]

theorem aset_keys_of_mem (l : List (String × PVal)) (k : String) (v : PVal)
    (h : amem l k = true) : (aset l k v).map Prod.fst = l.map Prod.fst := by
  induction l with
  | nil => simp [amem, alookup] at h
  | cons hd tl ih =>
    by_cases hh : hd.1 = k
    · simp [aset, hh]
    · have h' : amem tl k = true := by
        simpa [amem, alookup, hh] using h
      simp [aset, hh, ih h']

theorem aset_keys_of_not_mem (l : List (String × PVal)) (k : String) (v : PVal)
    (h : amem l k = false) : (aset l k v).map Prod.fst = l.map Prod.fst ++ [k] := by
  induction l with
  | nil => simp [aset]
  | cons hd tl ih =>
    by_cases hh : hd.1 = k
    · simp [amem, alookup, hh] at h
    · have h' : amem tl k = false := by
        simpa [amem, alookup, hh] using h
      simp [aset, hh, ih h']

theorem aupdate_single (l : List (String × PVal)) (k : String) (v : PVal) :
    aupdate l [(k, v)] = aset l k v := by
  simp [aupdate]

@[simp] theorem withConfig_config (c : TKC) (x : List (String × PVal)) :
    (c.withConfig x).config = x := by cases c; rfl

@[simp] theorem withConfig_idList (c : TKC) (x : List (String × PVal)) :
    (c.withConfig x).idList = c.idList := by cases c; rfl

@[simp] theorem withConfig_parDef (c : TKC) (x : List (String × PVal)) :
    (c.withConfig x).parDef = c.parDef := by cases c; rfl

@[simp] theorem withConfig_widgets (c : TKC) (x : List (String × PVal)) :
    (c.withConfig x).widgets = c.widgets := by cases c; rfl

@[simp] theorem withConfig_notifyChange (c : TKC) (x : List (String × PVal)) :
    (c.withConfig x).notifyChange = c.notifyChange := by cases c; rfl

@[simp] theorem withConfig_withConfig (c : TKC) (x y : List (String × PVal)) :
    (c.withConfig x).withConfig y = c.withConfig y := by cases c; rfl

theorem withConfig_self (c : TKC) : c.withConfig c.config = c := by cases c; rfl

theorem alookup_some_mem {l : List (String × PVal)} {k : String} {v : PVal}
    (h : alookup l k = some v) : (k, v) ∈ l := by
  induction l with
  | nil => simp [alookup] at h
  | cons hd tl ih =>
    by_cases hh : hd.1 = k
    · simp only [alookup, hh, beq_self_eq_true, if_true] at h
      cases h
      subst hh
      simp
    · simp only [alookup, beq_iff_eq, hh, if_false] at h
      exact List.mem_cons_of_mem _ (ih h)

theorem alookup_none_iff {l : List (String × PVal)} {k : String} :
    alookup l k = none ↔ k ∉ l.map Prod.fst := by
  induction l with
  | nil => simp [alookup]
  | cons hd tl ih =>
    by_cases hh : hd.1 = k
    · simp [alookup, hh]
    · simp [alookup, hh, ih, Ne.symm hh]

theorem alookup_append_left {l1 l2 : List (String × PVal)} {k : String}
    (h : alookup l1 k = none) : alookup (l1 ++ l2) k = alookup l2 k := by
  induction l1 with
  | nil => simp
  | cons hd tl ih =>
    by_cases hh : hd.1 = k
    · simp [alookup, hh] at h
    · simp only [alookup, beq_iff_eq, hh, if_false] at h
      simp [alookup, hh, ih h]

theorem aset_append_of_none {l1 l2 : List (String × PVal)} {k : String} {v : PVal}
    (h : alookup l1 k = none) : aset (l1 ++ l2) k v = l1 ++ aset l2 k v := by
  induction l1 with
  | nil => simp
  | cons hd tl ih =>
    by_cases hh : hd.1 = k
    · simp [alookup, hh] at h
    · simp only [alookup, beq_iff_eq, hh, if_false] at h
      simp [aset, hh, ih h]

theorem aset_cons_self (k : String) (e v : PVal) (l : List (String × PVal)) :
    aset ((k, e) :: l) k v = (k, v) :: l := by
  simp [aset]

theorem mem_aset {l : List (String × PVal)} {k : String} {v : PVal} {p : String × PVal}
    (h : p ∈ aset l k v) : p = (k, v) ∨ p ∈ l := by
  induction l with
  | nil => simpa [aset] using h
  | cons hd tl ih =>
    by_cases hh : hd.1 = k
    · simp only [aset, hh, beq_self_eq_true, if_true, List.mem_cons] at h
      rcases h with h | h
      · subst hh
        exact Or.inl h
      · exact Or.inr (List.mem_cons_of_mem _ h)
    · simp only [aset, beq_iff_eq, hh, if_false, List.mem_cons] at h
      rcases h with h | h
      · exact Or.inr (by rw [h]; exact List.mem_cons_self _ _)
      · rcases ih h with h2 | h2
        · exact Or.inl h2
        · exact Or.inr (List.mem_cons_of_mem _ h2)

theorem alookup_map_value {l : List (String × PVal)} {k : String} {e : PVal}
    (f : PVal → PVal) (h : alookup l k = some e) :
    alookup (l.map (fun p => (p.1, f p.2))) k = some (f e) := by
  induction l with
  | nil => simp [alookup] at h
  | cons hd tl ih =>
    by_cases hh : hd.1 = k
    · simp only [alookup, hh, beq_self_eq_true, if_true] at h
      cases h
      simp [alookup, hh]
    · simp only [alookup, beq_iff_eq, hh, if_false] at h
      simp [alookup, hh, ih h]

mutual
/-- Values whose Python equality is purely structural: no nested engine and
no callback inside (Python compares those by object identity).  On such
values the model equality `pyEq` agrees exactly with Python `==`
(modulo the absence of float NaN in the rational float model). -/
def PVal.idFree : PVal → Bool
  | .vTuple xs => plistIdFree xs
  | .vList xs => plistIdFree xs
  | .vDict m => ppairsIdFree m
  | .vCallback _ => false
  | .vTkc _ => false
  | _ => true

/-- All elements identity-free. -/
def plistIdFree : List PVal → Bool
  | [] => true
  | x :: xs => PVal.idFree x && plistIdFree xs

/-- All values identity-free. -/
def ppairsIdFree : List (String × PVal) → Bool
  | [] => true
  | (_, v) :: xs => PVal.idFree v && ppairsIdFree xs
end

/-- A well-shaped config entry: a dict holding both a value and an oldValue. -/
def EntryWF (e : PVal) : Prop :=
  ∃ m, e = .vDict m ∧ amem m "value" = true ∧ amem m "oldValue" = true

/-- A dict-shaped config entry. -/
def EntryDict (e : PVal) : Prop := ∃ m, e = .vDict m

/-- Well-formedness of a value store as produced by the engine itself:
every entry is a dict with value and oldValue, every stored id is known to
the schema, and ids are unique (Python dict keys). -/
structure CfgWF (c : TKC) : Prop where
  shape : ∀ p ∈ c.config, EntryWF p.2
  inId : ∀ p ∈ c.config, (slookup c.idList p.1).isSome = true
  nodup : (c.config.map Prod.fst).Nodup

theorem getIdDefinition_congr (c c' : TKC) (h1 : c'.idList = c.idList)
    (h2 : c'.parDef = c.parDef) (id : String) :
    getIdDefinition c' id = getIdDefinition c id := by
  unfold getIdDefinition validateGroupId
  rw [h1, h2]

theorem validateValue_congr (c c' : TKC) (h1 : c'.idList = c.idList)
    (h2 : c'.parDef = c.parDef) (id : String) (v : PVal) (b : Bool) :
    validateValue c' id v b = validateValue c id v b := by
  unfold validateValue
  rw [getIdDefinition_congr c c' h1 h2]

theorem amem_of_alookup {l : List (String × PVal)} {k : String} {v : PVal}
    (h : alookup l k = some v) : amem l k = true := by
  simp [amem, h]

theorem syncWidget_of_config {c : TKC} {id : String}
    (hmem : amem c.config id = true) (hw : id ∈ c.widgets) :
    syncWidget c (some id) = (c, none) := by
  simp [syncWidget, hw, hmem]

/-- A failed validation leaves `set` without any effect: the error is raised
before anything is stored. -/
theorem set_of_invalid {c : TKC} {id : String} {v : PVal} {e : PyErr} (sync init : Bool)
    (hv : validateValue c id v true = .error e) :
    set c id v sync init = (c, some e) := by
  simp [set, hv]

/-- `set` on an id with no stored entry stamps value and oldValue to the
validated value, regardless of `init`. -/
theorem set_of_fresh {c : TKC} {id : String} {v v' : PVal} (sync init : Bool)
    (hv : validateValue c id v true = .ok v')
    (hnone : alookup c.config id = none) :
    set c id v sync init =
      (c.withConfig (aset c.config id (.vDict [("oldValue", v'), ("value", v')])), none) := by
  have hmem : amem (aset c.config id (.vDict [("oldValue", v'), ("value", v')])) id = true :=
    amem_of_alookup (alookup_aset_self _ _ _)
  by_cases hw : id ∈ c.widgets <;>
    simp [set, setCond, hv, hnone, aupdate_single, syncWidget, hmem, hw]

/-- `set` with `init` on an id that already has a dict entry also stamps both
value and oldValue to the validated value. -/
theorem set_of_init {c : TKC} {id : String} {v v' : PVal} {m : List (String × PVal)}
    (sync : Bool)
    (hv : validateValue c id v true = .ok v')
    (hm : alookup c.config id = some (.vDict m)) :
    set c id v sync true =
      (c.withConfig (aset c.config id (.vDict [("oldValue", v'), ("value", v')])), none) := by
  have hmem : amem (aset c.config id (.vDict [("oldValue", v'), ("value", v')])) id = true :=
    amem_of_alookup (alookup_aset_self _ _ _)
  by_cases hw : id ∈ c.widgets <;>
    simp [set, setCond, hv, hm, pyIn, aupdate_single, syncWidget, hmem, hw, bind, Except.bind]

/-- `set` without `init` when the validated value equals the current one:
neither value nor oldValue changes. -/
theorem set_of_eq {c : TKC} {id : String} {v v' cur : PVal} {m : List (String × PVal)}
    (sync : Bool)
    (hv : validateValue c id v true = .ok v')
    (hm : alookup c.config id = some (.vDict m))
    (hcur : alookup m "value" = some cur)
    (heq : pyEq v' cur = true) :
    set c id v sync false = (c, none) := by
  have hmem : amem c.config id = true := amem_of_alookup hm
  have hval : amem m "value" = true := amem_of_alookup hcur
  by_cases hw : id ∈ c.widgets <;>
    simp [set, setCond, hv, hm, pyIn, hval, hcur, heq, syncWidget, hmem, hw, bind, Except.bind]

/-- `set` without `init` when the validated value differs from the current
one: value becomes the new value, oldValue the previous current value. -/
theorem set_of_ne {c : TKC} {id : String} {v v' cur : PVal} {m : List (String × PVal)}
    (sync : Bool)
    (hv : validateValue c id v true = .ok v')
    (hm : alookup c.config id = some (.vDict m))
    (hcur : alookup m "value" = some cur)
    (hne : pyEq v' cur = false) :
    set c id v sync false =
      (c.withConfig (aset c.config id (.vDict [("oldValue", cur), ("value", v')])), none) := by
  have hval : amem m "value" = true := amem_of_alookup hcur
  have hmem : amem (aset c.config id (.vDict [("oldValue", cur), ("value", v')])) id = true :=
    amem_of_alookup (alookup_aset_self _ _ _)
  by_cases hw : id ∈ c.widgets <;>
    simp [set, setCond, hv, hm, pyIn, hval, hcur, hne, aupdate_single, syncWidget, hmem, hw, bind, Except.bind]

/-- The effect of `apply` on one well-shaped entry: oldValue := value. -/
def applyEntry : PVal → PVal
  | .vDict m => .vDict (aset m "oldValue" ((alookup m "value").getD .vNone))
  | e => e

/-- The effect of `undo` on one dict entry: value := oldValue when an
oldValue is recorded, otherwise no change. -/
def undoEntry : PVal → PVal
  | .vDict m =>
      if amem m "oldValue" then .vDict (aset m "value" ((alookup m "oldValue").getD .vNone))
      else .vDict m
  | e => e

theorem aset_lookup_self_eq {l : List (String × PVal)} {k : String} {v : PVal}
    (h : alookup l k = some v) : aset l k v = l := by
  induction l with
  | nil => simp [alookup] at h
  | cons hd tl ih =>
    by_cases hh : hd.1 = k
    · simp only [alookup, hh, beq_self_eq_true, if_true] at h
      cases h
      subst hh
      simp [aset]
    · simp only [alookup, beq_iff_eq, hh, if_false] at h
      simp [aset, hh, ih h]

theorem applyOne_step {c : TKC} {id : String} {m : List (String × PVal)} {v : PVal}
    (sync : Bool)
    (hm : alookup c.config id = some (.vDict m))
    (hv : alookup m "value" = some v) :
    applyOne c [] id sync =
      (c.withConfig (aset c.config id (applyEntry (.vDict m))), none) := by
  have hval : amem m "value" = true := amem_of_alookup hv
  simp [applyOne, applyCond, hm, dictGetP, dictSetP, hv, applyEntry]

theorem undoOne_step {c : TKC} {id : String} {m : List (String × PVal)}
    (hm : alookup c.config id = some (.vDict m)) :
    undoOne c [] id =
      (c.withConfig (aset c.config id (undoEntry (.vDict m))), none) := by
  by_cases hov : amem m "oldValue" = true
  · obtain ⟨ov, hov'⟩ : ∃ ov, alookup m "oldValue" = some ov := by
      cases h : alookup m "oldValue" with
      | none => simp [amem, h] at hov
      | some x => exact ⟨x, rfl⟩
    simp [undoOne, undoCond, hm, pyIn, hov, dictGetP, dictSetP, hov', undoEntry, bind, Except.bind]
  · have heq : aset c.config id (.vDict m) = c.config := aset_lookup_self_eq hm
    simp [undoOne, undoCond, hm, pyIn, hov, undoEntry, heq, withConfig_self, bind, Except.bind]

theorem apply_fold_spec :
    ∀ (post pre : List (String × PVal)) (c : TKC),
    c.config = pre ++ post →
    (∀ p ∈ post, EntryWF p.2) →
    ((pre ++ post).map Prod.fst).Nodup →
    (post.map Prod.fst).foldl
      (fun acc i =>
        match acc with
        | (c', none) => applyOne c' [] i true
        | st => st)
      (c, none)
    = (c.withConfig (pre ++ post.map (fun p => (p.1, applyEntry p.2))), none) := by
  intro post
  induction post with
  | nil =>
    intro pre c hcfg _ _
    simp [← hcfg, withConfig_self]
  | cons hd rest ih =>
    obtain ⟨k, e⟩ := hd
    intro pre c hcfg hwf hnd
    obtain ⟨m, hdm, hvm, _⟩ := hwf (k, e) (List.mem_cons_self _ _)
    simp only at hdm
    subst hdm
    obtain ⟨v, hv⟩ : ∃ v, alookup m "value" = some v := by
      cases h : alookup m "value" with
      | none => simp [amem, h] at hvm
      | some x => exact ⟨x, rfl⟩
    have hknp : k ∉ pre.map Prod.fst := by
      have hsplit := hnd
      rw [List.map_append, List.nodup_append] at hsplit
      exact fun hmem => hsplit.2.2 hmem (by simp)
    have hpre : alookup pre k = none := alookup_none_iff.mpr hknp
    have hlk : alookup c.config k = some (.vDict m) := by
      rw [hcfg, alookup_append_left hpre]
      simp [alookup]
    have hstep := applyOne_step true hlk hv
    have haset : aset c.config k (applyEntry (.vDict m)) =
        pre ++ (k, applyEntry (.vDict m)) :: rest := by
      rw [hcfg, aset_append_of_none hpre, aset_cons_self]
    simp only [List.map_cons, List.foldl_cons, hstep, haset]
    have hres := ih (pre ++ [(k, applyEntry (.vDict m))])
      (c.withConfig (pre ++ (k, applyEntry (.vDict m)) :: rest))
      (by simp)
      (fun p hp => hwf p (List.mem_cons_of_mem _ hp))
      (by
        have hkeys : ((pre ++ [(k, applyEntry (.vDict m))]) ++ rest).map Prod.fst =
            ((pre ++ (k, PVal.vDict m) :: rest).map Prod.fst) := by
          simp
        rw [hkeys]
        exact hnd)
    rw [hres]
    simp

theorem undo_fold_spec :
    ∀ (post pre : List (String × PVal)) (c : TKC),
    c.config = pre ++ post →
    (∀ p ∈ post, EntryDict p.2) →
    ((pre ++ post).map Prod.fst).Nodup →
    (post.map Prod.fst).foldl
      (fun acc i =>
        match acc with
        | (c', none) => undoOne c' [] i
        | st => st)
      (c, none)
    = (c.withConfig (pre ++ post.map (fun p => (p.1, undoEntry p.2))), none) := by
  intro post
  induction post with
  | nil =>
    intro pre c hcfg _ _
    simp [← hcfg, withConfig_self]
  | cons hd rest ih =>
    obtain ⟨k, e⟩ := hd
    intro pre c hcfg hwf hnd
    obtain ⟨m, hdm⟩ := hwf (k, e) (List.mem_cons_self _ _)
    simp only at hdm
    subst hdm
    have hknp : k ∉ pre.map Prod.fst := by
      have hsplit := hnd
      rw [List.map_append, List.nodup_append] at hsplit
      exact fun hmem => hsplit.2.2 hmem (by simp)
    have hpre : alookup pre k = none := alookup_none_iff.mpr hknp
    have hlk : alookup c.config k = some (.vDict m) := by
      rw [hcfg, alookup_append_left hpre]
      simp [alookup]
    have hstep := undoOne_step hlk
    have haset : aset c.config k (undoEntry (.vDict m)) =
        pre ++ (k, undoEntry (.vDict m)) :: rest := by
      rw [hcfg, aset_append_of_none hpre, aset_cons_self]
    simp only [List.map_cons, List.foldl_cons, hstep, haset]
    have hres := ih (pre ++ [(k, undoEntry (.vDict m))])
      (c.withConfig (pre ++ (k, undoEntry (.vDict m)) :: rest))
      (by simp)
      (fun p hp => hwf p (List.mem_cons_of_mem _ hp))
      (by
        have hkeys : ((pre ++ [(k, undoEntry (.vDict m))]) ++ rest).map Prod.fst =
            ((pre ++ (k, PVal.vDict m) :: rest).map Prod.fst) := by
          simp
        rw [hkeys]
        exact hnd)
    rw [hres]
    simp

/-- Full-scope `apply` on a well-formed store: every entry gets
oldValue := value and nothing fails. -/
theorem apply_all (c : TKC) (sync : Bool)
    (hwf : ∀ p ∈ c.config, EntryWF p.2)
    (hnd : (c.config.map Prod.fst).Nodup) :
    apply c [] none sync =
      (c.withConfig (c.config.map (fun p => (p.1, applyEntry p.2))), none) := by
  have h := apply_fold_spec c.config [] c (by simp) hwf (by simpa using hnd)
  simpa [apply] using h

/-- Full-scope `undo` on a dict-shaped store: every entry with a recorded
oldValue gets value := oldValue and nothing fails. -/
theorem undo_all (c : TKC)
    (hwf : ∀ p ∈ c.config, EntryDict p.2)
    (hnd : (c.config.map Prod.fst).Nodup) :
    undo c [] none =
      (c.withConfig (c.config.map (fun p => (p.1, undoEntry p.2))), none) := by
  have h := undo_fold_spec c.config [] c (by simp) hwf (by simpa using hnd)
  simpa [undo] using h

/-- Reading a stored value through `get`. -/
theorem get_of_value {c : TKC} {id : String} {m : List (String × PVal)} {v : PVal}
    (rd sy : Bool)
    (hid : (slookup c.idList id).isSome = true)
    (hm : alookup c.config id = some (.vDict m))
    (hv : alookup m "value" = some v) :
    get c id rd sy = .ok v := by
  have hval : amem m "value" = true := amem_of_alookup hv
  simp [get, validateGroupId, hid, hm, pyIn, hval, dictGetP, hv]

/-! ## Concrete states used by witnesses and counterexamples -/

/-- The spec scenario parameter: maxIter, int, valrange (100, 4000, 10),
initvalue 256 (section 8 of the spec), with a spinbox widget attribute. -/
def pdMaxIter : List (String × PVal) :=
  [("g", .vDict [("maxIter", .vDict
    [("inputtype", .vStr "int"),
     ("valrange", .vTuple [.vInt 100, .vInt 4000, .vInt 10]),
     ("initvalue", .vInt 256),
     ("widget", .vStr "TKCSpinbox")])])]

/-- The engine right after installing `pdMaxIter`. -/
def cMI : TKC := (mkTKConfigure 10 (some pdMaxIter) none).1

/-! ## C1 -/

/-- C1: for a parameter id with a stored value `v1`, the sequence
`apply(); set(id, v2); undo()` with a valid `v2` whose validated form
differs from `v1` leaves `get(id)` equal to `v1`, the value at the time of
`apply()` (not the initvalue).  Stated for engine-produced stores
(`CfgWF`), for states without bound widgets (`apply` would otherwise first
pull live widget values, out of scope per spec section 1), and for
identity-free values, on which the model equality is exactly Python `==`. -/
theorem claim_C1 (c : TKC) (id : String) (m : List (String × PVal))
    (v1 v2 v2' : PVal)
    (hwf : CfgWF c) (_hwid : c.widgets = [])
    (hm : alookup c.config id = some (.vDict m))
    (hv1 : alookup m "value" = some v1)
    (hval : validateValue c id v2 true = .ok v2')
    (hne : pyEq v2' v1 = false)
    (_hfree1 : v1.idFree = true) (_hfree2 : v2'.idFree = true) :
    (apply c [] none true).2 = none ∧
    (set (apply c [] none true).1 id v2 false false).2 = none ∧
    (undo (set (apply c [] none true).1 id v2 false false).1 [] none).2 = none ∧
    get (undo (set (apply c [] none true).1 id v2 false false).1 [] none).1 id true false
      = .ok v1 := by
  have happly := apply_all c true hwf.shape hwf.nodup
  set c1 := c.withConfig (c.config.map (fun p => (p.1, applyEntry p.2))) with hc1
  have hm1 : alookup c1.config id = some (applyEntry (.vDict m)) := by
    rw [hc1, withConfig_config]
    exact alookup_map_value _ hm
  have hae : applyEntry (.vDict m) = .vDict (aset m "oldValue" v1) := by
    simp [applyEntry, hv1]
  have hv1' : alookup (aset m "oldValue" v1) "value" = some v1 := by
    rw [alookup_aset_ne _ _ _ _ (by decide)]
    exact hv1
  have hval1 : validateValue c1 id v2 true = .ok v2' := by
    rw [validateValue_congr c c1 (by simp [hc1]) (by simp [hc1])]
    exact hval
  have hset := set_of_ne (c := c1) false hval1 (hae ▸ hm1) hv1' hne
  set entry2 : PVal := .vDict [("oldValue", v1), ("value", v2')] with hent
  set c2 := c1.withConfig (aset c1.config id entry2) with hc2
  have hdicts : ∀ p ∈ c2.config, EntryDict p.2 := by
    intro p hp
    rw [hc2, withConfig_config] at hp
    rcases mem_aset hp with h | h
    · rw [h]; exact ⟨_, rfl⟩
    · rw [hc1, withConfig_config] at h
      rcases List.mem_map.mp h with ⟨q, hq, hq2⟩
      obtain ⟨mq, hmq, _, _⟩ := hwf.shape q hq
      rw [← hq2, hmq]
      exact ⟨_, rfl⟩
  have hnd2 : (c2.config.map Prod.fst).Nodup := by
    rw [hc2, withConfig_config,
      aset_keys_of_mem _ _ _ (amem_of_alookup (hae ▸ hm1))]
    rw [hc1, withConfig_config]
    have : (c.config.map (fun p => (p.1, applyEntry p.2))).map Prod.fst =
        c.config.map Prod.fst := by
      simp
    rw [this]
    exact hwf.nodup
  have hundo := undo_all c2 hdicts hnd2
  have hm2 : alookup c2.config id = some entry2 := by
    rw [hc2, withConfig_config]
    exact alookup_aset_self _ _ _
  have hue : undoEntry entry2 = .vDict [("oldValue", v1), ("value", v1)] := rfl
  have hm3 : alookup (c2.withConfig
      (c2.config.map (fun p => (p.1, undoEntry p.2)))).config id =
      some (.vDict [("oldValue", v1), ("value", v1)]) := by
    rw [withConfig_config, ← hue]
    exact alookup_map_value _ hm2
  have hid : (slookup c.idList id).isSome = true :=
    hwf.inId _ (alookup_some_mem hm)
  refine ⟨?_, ?_, ?_, ?_⟩
  · rw [happly]
  · rw [happly]
    simp only
    rw [hset]
  · rw [happly]
    simp only
    rw [hset]
    simp only
    rw [hundo]
  · rw [happly]
    simp only
    rw [hset]
    simp only
    rw [hundo]
    simp only
    exact get_of_value true false (by simpa [hc2, hc1] using hid) hm3 rfl

/-- The store of `cMI` is well formed (helper for the witnesses). -/
theorem cMI_wf : CfgWF cMI := by
  have hc : cMI.config =
      [("maxIter", .vDict [("oldValue", .vInt 256), ("value", .vInt 256)])] := rfl
  constructor
  · intro p hp
    rw [hc] at hp
    simp only [List.mem_singleton] at hp
    subst hp
    exact ⟨_, rfl, rfl, rfl⟩
  · intro p hp
    rw [hc] at hp
    simp only [List.mem_singleton] at hp
    subst hp
    rfl
  · rw [hc]
    simp

/-- C1 witness: the maxIter scenario of spec section 8 — `apply()`, then
`set(maxIter, 500)`, then `undo()` restores 256, the value current at the
time of `apply()`. -/
theorem claim_C1_witness :
    pyEq (.vInt 500) (.vInt 256) = false ∧
    get (undo (set (apply cMI [] none true).1 "maxIter" (.vInt 500) false false).1
        [] none).1 "maxIter" true false = .ok (.vInt 256) :=
  ⟨rfl, (claim_C1 cMI "maxIter" [("oldValue", .vInt 256), ("value", .vInt 256)]
      (.vInt 256) (.vInt 500) (.vInt 500) cMI_wf rfl rfl rfl rfl rfl rfl rfl).2.2.2⟩

/-! ## C2 -/

/-- C2: for an id that already has a stored value `cur`: `set` with `init`
stamps value and oldValue to the validated value; `set` without `init` and a
value validating equal to `cur` changes nothing; `set` without `init` and a
differing valid value stores it and moves `cur` into oldValue.  The
identity-free hypotheses restrict to values on which the model equality is
exactly Python `==` (Python compares nested engines by object identity). -/
theorem claim_C2 (c : TKC) (id : String) (m : List (String × PVal))
    (v v' cur : PVal) (sync : Bool)
    (hm : alookup c.config id = some (.vDict m))
    (hcur : alookup m "value" = some cur)
    (hval : validateValue c id v true = .ok v')
    (_hfree1 : v'.idFree = true) (_hfree2 : cur.idFree = true) :
    set c id v sync true =
      (c.withConfig (aset c.config id (.vDict [("oldValue", v'), ("value", v')])), none) ∧
    (pyEq v' cur = true → set c id v sync false = (c, none)) ∧
    (pyEq v' cur = false → set c id v sync false =
      (c.withConfig (aset c.config id (.vDict [("oldValue", cur), ("value", v')])), none)) :=
  ⟨set_of_init sync hval hm,
   fun heq => set_of_eq sync hval hm hcur heq,
   fun hne => set_of_ne sync hval hm hcur hne⟩

/-- C2 witness: on the maxIter store holding 256, an init-set of 500 stamps
both fields, a redundant plain set of 256 changes nothing, and a plain set
of 500 stores 500 with oldValue 256. -/
theorem claim_C2_witness :
    set cMI "maxIter" (.vInt 500) false true =
      (cMI.withConfig (aset cMI.config "maxIter"
        (.vDict [("oldValue", .vInt 500), ("value", .vInt 500)])), none) ∧
    set cMI "maxIter" (.vInt 256) false false = (cMI, none) ∧
    set cMI "maxIter" (.vInt 500) false false =
      (cMI.withConfig (aset cMI.config "maxIter"
        (.vDict [("oldValue", .vInt 256), ("value", .vInt 500)])), none) := by
  have h1 := claim_C2 cMI "maxIter" [("oldValue", .vInt 256), ("value", .vInt 256)]
    (.vInt 500) (.vInt 500) (.vInt 256) false rfl rfl rfl rfl rfl
  have h2 := claim_C2 cMI "maxIter" [("oldValue", .vInt 256), ("value", .vInt 256)]
    (.vInt 256) (.vInt 256) (.vInt 256) false rfl rfl rfl rfl rfl
  exact ⟨h1.1, h2.2.1 rfl, h1.2.2 rfl⟩

/-! ## C10 -/

/-- C10: for an id declared in the schema but with no entry in the value
store, a successful `set(id, v)` with `init = False` stamps both value and
oldValue to the validated value, so the first assignment is its own undo
baseline: an immediately following full `undo()` leaves `get(id)` at that
value. -/
theorem claim_C10 (c : TKC) (id : String) (v v' : PVal)
    (hwf : CfgWF c)
    (hid : (slookup c.idList id).isSome = true)
    (hnone : alookup c.config id = none)
    (hval : validateValue c id v true = .ok v') :
    (set c id v false false).2 = none ∧
    alookup (set c id v false false).1.config id =
      some (.vDict [("oldValue", v'), ("value", v')]) ∧
    (undo (set c id v false false).1 [] none).2 = none ∧
    get (undo (set c id v false false).1 [] none).1 id true false = .ok v' := by
  have hset := set_of_fresh false false hval hnone
  set entry : PVal := .vDict [("oldValue", v'), ("value", v')] with hent
  set c1 := c.withConfig (aset c.config id entry) with hc1
  have hm1 : alookup c1.config id = some entry := by
    rw [hc1, withConfig_config]
    exact alookup_aset_self _ _ _
  have hdicts : ∀ p ∈ c1.config, EntryDict p.2 := by
    intro p hp
    rw [hc1, withConfig_config] at hp
    rcases mem_aset hp with h | h
    · rw [h]; exact ⟨_, rfl⟩
    · obtain ⟨mq, hmq, _, _⟩ := hwf.shape p h
      rw [hmq]; exact ⟨_, rfl⟩
  have hnd1 : (c1.config.map Prod.fst).Nodup := by
    rw [hc1, withConfig_config, aset_keys_of_not_mem _ _ _ (by simp [amem, hnone])]
    rw [List.nodup_append]
    refine ⟨hwf.nodup, List.nodup_singleton _, ?_⟩
    intro a ha hb
    simp only [List.mem_singleton] at hb
    subst hb
    exact (alookup_none_iff.mp hnone) ha
  have hundo := undo_all c1 hdicts hnd1
  have hue : undoEntry entry = entry := rfl
  have hm2 : alookup (c1.withConfig
      (c1.config.map (fun p => (p.1, undoEntry p.2)))).config id = some entry := by
    rw [withConfig_config, ← hue]
    exact alookup_map_value _ hm1
  refine ⟨by rw [hset], by rw [hset]; simp only; exact hm1, ?_, ?_⟩
  · rw [hset]
    simp only
    rw [hundo]
  · rw [hset]
    simp only
    rw [hundo]
    simp only
    exact get_of_value true false (by simpa [hc1] using hid) hm2 rfl

/-- The maxIter schema with the value store still empty (no initial values
applied): obtained by clearing the store of `cMI`. -/
def cMIempty : TKC := cMI.withConfig []

/-- C10 witness: on a schema-only state, the first plain `set` of 500
stamps both fields and survives an immediate `undo()`. -/
theorem claim_C10_witness :
    (set cMIempty "maxIter" (.vInt 500) false false).2 = none ∧
    get (undo (set cMIempty "maxIter" (.vInt 500) false false).1 [] none).1
      "maxIter" true false = .ok (.vInt 500) := by
  have h := claim_C10 cMIempty "maxIter" (.vInt 500) (.vInt 500)
    ⟨by intro p hp; simp [cMIempty] at hp,
     by intro p hp; simp [cMIempty] at hp,
     by simp [cMIempty]⟩
    rfl rfl rfl
  exact ⟨h.1, h.2.2.2⟩

/-- The coercion block of `_validateValue` is dead code: whenever the strict
type check before it succeeds, every cast condition is false, so the value
passes through unchanged whatever `bCast` is. -/
theorem vvCast_noop (parCfg value : PVal) (b : Bool) (x : PVal)
    (h : vvTypeCheck parCfg value = .ok x) :
    vvCast parCfg value b = .ok value := by
  unfold vvTypeCheck at h
  simp only [bind, Except.bind] at h
  by_cases hd : (value.pyType == PyType.tyDict) = true
  · have hdeq : value.pyType = PyType.tyDict := by
      exact beq_iff_eq.mp hd
    rw [if_pos hd] at h
    cases hit : dictGetP parCfg "inputtype" with
    | error e => rw [hit] at h; cases h
    | ok it =>
      rw [hit] at h
      simp only [vvCast, bind, Except.bind, hit]
      cases b <;> simp [hdeq]
  · rw [if_neg hd] at h
    simp only [bne_iff_ne, ne_eq] at h
    have hne : value.pyType ≠ PyType.tyDict := fun hh => hd (beq_iff_eq.mpr hh)
    rw [if_pos hne] at h
    cases hit : dictGetP parCfg "inputtype" with
    | error e => rw [hit] at h; cases h
    | ok it =>
      rw [hit] at h
      dsimp only at h
      simp only [vvCast, bind, Except.bind, hit]
      cases it with
      | vStr s =>
        dsimp only at h
        cases hty : typesMap s with
        | none => rw [hty] at h; cases h
        | some ty =>
          rw [hty] at h
          by_cases hvt : value.pyType = ty
          · have hc1 : (value.pyType == PyType.tyInt && attrIsStr (.vStr s) "float") = false := by
              simp only [attrIsStr]
              by_cases hf : s = "float"
              · subst hf
                simp only [typesMap, Option.some.injEq] at hty
                subst hty
                simp [hvt]
              · simp [hf]
            have hc2 : (value.pyType == PyType.tyFloat && attrIsStr (.vStr s) "int") = false := by
              simp only [attrIsStr]
              by_cases hf : s = "int"
              · subst hf
                simp only [typesMap, Option.some.injEq] at hty
                subst hty
                simp [hvt]
              · simp [hf]
            have hc3 : ((value.pyType == PyType.tyInt || value.pyType == PyType.tyFloat) &&
                attrIsStr (.vStr s) "complex") = false := by
              simp only [attrIsStr]
              by_cases hf : s = "complex"
              · subst hf
                simp only [typesMap, Option.some.injEq] at hty
                subst hty
                simp [hvt]
              · simp [hf]
            cases b <;> simp [hc1, hc2, hc3]
          · exfalso
            dsimp only at h
            rw [if_pos hvt] at h
            cases h
      | vInt n => dsimp only at h; cases h
      | vFloat q => dsimp only at h; cases h
      | vBool bb => dsimp only at h; cases h
      | vComplex r i => dsimp only at h; cases h
      | vNone => dsimp only at h; cases h
      | vTuple xs => dsimp only at h; cases h
      | vList xs => dsimp only at h; cases h
      | vDict m => dsimp only at h; cases h
      | vCallback t => dsimp only at h; cases h
      | vTkc cc => dsimp only at h; cases h

/-- A successful `_validateValue` returns its input unchanged: the engine
never actually coerces. -/
theorem validateValue_ok_eq (c : TKC) (id : String) (v w : PVal) (b : Bool)
    (h : validateValue c id v b = .ok w) : w = v := by
  unfold validateValue at h
  simp only [bind, Except.bind] at h
  cases hpc : getIdDefinition c id with
  | error e => rw [hpc] at h; cases h
  | ok parCfg =>
    rw [hpc] at h
    dsimp only at h
    cases htc : vvTypeCheck parCfg v with
    | error e => rw [htc] at h; cases h
    | ok x =>
      rw [htc] at h
      dsimp only at h
      rw [vvCast_noop parCfg v b x htc] at h
      dsimp only at h
      cases hr : vvRange parCfg v with
      | error e => rw [hr] at h; cases h
      | ok y =>
        rw [hr] at h
        injection h with h2
        exact h2.symm

/-! ## C3 -/

/-- Numeric parameters of each inputtype for exercising the coercion path. -/
def pdNum : List (String × PVal) :=
  [("g", .vDict
    [("f", .vDict [("inputtype", .vStr "float"), ("initvalue", .vFloat 1),
                   ("widget", .vStr "TKCEntry")]),
     ("i", .vDict [("inputtype", .vStr "int"), ("initvalue", .vInt 1),
                   ("widget", .vStr "TKCEntry")]),
     ("z", .vDict [("inputtype", .vStr "complex"),
                   ("initvalue", .vComplex 1 0),
                   ("widget", .vStr "TKCEntry")])])]

/-- The engine with the three numeric parameters installed. -/
def cNum : TKC := (mkTKConfigure 10 (some pdNum) none).1

/-- C3, refuting the claimed behaviour on the code: with coercion enabled
(`bCast = True`, as `set` always passes), an int value for a float
parameter, a float for an int parameter, and an int or float for a complex
parameter are all rejected with TypeError instead of being widened — the
strict run-time type check precedes the cast block, so the cast block is
dead code (`validateValue_ok_eq` proves a successful validation always
returns its input unchanged) — and the failed `set` mutates nothing. -/
theorem claim_C3_no_coercion :
    (mkTKConfigure 10 (some pdNum) none).2 = none ∧
    validateValue cNum "f" (.vInt 1) true =
      .error (.typeError "Type of value does not match input type") ∧
    validateValue cNum "i" (.vFloat (3 / 2)) true =
      .error (.typeError "Type of value does not match input type") ∧
    validateValue cNum "z" (.vInt 1) true =
      .error (.typeError "Type of value does not match input type") ∧
    validateValue cNum "z" (.vFloat 1) true =
      .error (.typeError "Type of value does not match input type") ∧
    (set cNum "f" (.vInt 1) false false).1 = cNum :=
  ⟨rfl, rfl, rfl, rfl, rfl, rfl⟩

/-! ## C5 -/

/-- A valid definition that omits every optional attribute (notably
`widget`). -/
def pdNoWidget : List (String × PVal) :=
  [("g", .vDict [("p", .vDict
    [("inputtype", .vStr "int"),
     ("valrange", .vTuple [.vInt 0, .vInt 10]),
     ("initvalue", .vInt 5)])])]

/-- The same definition with an explicit widget attribute. -/
def pdWithWidget : List (String × PVal) :=
  [("g", .vDict [("p", .vDict
    [("inputtype", .vStr "int"),
     ("valrange", .vTuple [.vInt 0, .vInt 10]),
     ("initvalue", .vInt 5),
     ("widget", .vStr "TKCEntry")])])]

/-- The empty engine state used as installation target. -/
def tkcEmpty : TKC := .mk [] [] [] [] (.vInt 0) none

/-- C5, refuting the claim on the code: a parameter definition that omits
the optional `widget` attribute is rejected by `setDefinition` with
ValueError — the default `widget = None` is filled in and then fails the
`widget not in _WIDGETS_` check, although the source documents None as
the legal default ("Do not create a widget") and `createWidgets` explicitly
skips None widgets.  The same definition with a widget passes, and then
`getPar` indeed serves the remaining attributes from the defaults. -/
theorem claim_C5_widget_default_rejected :
    (setParameterDefinition 10 tkcEmpty (some pdNoWidget) none).2 =
      some (.valueError "Unknown widget type") ∧
    (setParameterDefinition 10 tkcEmpty (some pdWithWidget) none).2 = none ∧
    getPar (setParameterDefinition 10 tkcEmpty (some pdWithWidget) none).1
      "g" "p" "label" = .ok (.vStr "") ∧
    getPar (setParameterDefinition 10 tkcEmpty (some pdWithWidget) none).1
      "g" "p" "width" = .ok (.vInt 20) ∧
    getPar (setParameterDefinition 10 tkcEmpty (some pdWithWidget) none).1
      "g" "p" "readonly" = .ok (.vBool false) :=
  ⟨rfl, rfl, rfl, rfl, rfl⟩

/-! ## C4 -/

/-- A store with numeric, string, bit-field and complex parameters. -/
def pdMixed : List (String × PVal) :=
  [("g", .vDict
    [("n", .vDict [("inputtype", .vStr "int"),
                   ("valrange", .vTuple [.vInt 0, .vInt 100]),
                   ("initvalue", .vInt 42), ("widget", .vStr "TKCEntry")]),
     ("x", .vDict [("inputtype", .vStr "float"), ("initvalue", .vFloat (7 / 2)),
                   ("widget", .vStr "TKCEntry")]),
     ("s", .vDict [("inputtype", .vStr "str"), ("initvalue", .vStr "abc"),
                   ("widget", .vStr "TKCEntry")]),
     ("b", .vDict [("inputtype", .vStr "bits"),
                   ("valrange", .vList [.vStr "b0", .vStr "b1", .vStr "b2"]),
                   ("initvalue", .vInt 5), ("widget", .vStr "TKCFlags")]),
     ("w", .vDict [("inputtype", .vStr "complex"),
                   ("initvalue", .vComplex (-9 / 4) (-3 / 2)),
                   ("widget", .vStr "TKCEntry")])])]

/-- The mixed store installed. -/
def cMixed : TKC := (mkTKConfigure 10 (some pdMixed) none).1

/-- A child schema for a nested-config parameter. -/
def pdChild : List (String × PVal) :=
  [("cg", .vDict [("size", .vDict
    [("inputtype", .vStr "int"),
     ("initvalue", .vInt 4096),
     ("widget", .vStr "TKCEntry")])])]

/-- The child engine of the nested parameter. -/
def childC : TKC := (mkTKConfigure 10 (some pdChild) none).1

/-- A store that also holds a nested-config parameter. -/
def pdNested : List (String × PVal) :=
  [("g", .vDict
    [("palette", .vDict
      [("inputtype", .vStr "tkc"),
       ("pardef", .vDict [("dummy", .vDict [])]),
       ("initvalue", .vTkc childC),
       ("widget", .vStr "TKCMask")]),
     ("corner", .vDict
      [("inputtype", .vStr "complex"),
       ("initvalue", .vComplex (-9 / 4) (-3 / 2)),
       ("widget", .vStr "TKCEntry")])])]

/-- The nested store installed (no widgets are bound: the engine is used
headless, as the serializer is specified to be UI-independent). -/
def cNested : TKC := (mkTKConfigure 10 (some pdNested) none).1

/-- C4: the simple-mode round trip reproduces the id-to-value mapping for
numeric, string, bit-field and complex parameters (complex survives the
real/imag record), but for a store holding a nested-config parameter
`setJSON` raises: the decode path for inputtype tkc calls `syncWidget(id)`
unconditionally, which raises KeyError (wrapped into the setConfig
ValueError) whenever no widget is bound to the id — although the spec makes
the serializer independent of the UI.  So the claimed round trip fails on
every widgetless store containing a nested-config value. -/
theorem claim_C4_roundtrip :
    (roundTripSimple 20 cMixed).2 = none ∧
    getConfig (roundTripSimple 20 cMixed).1 true = getConfig cMixed true ∧
    get (roundTripSimple 20 cMixed).1 "w" true false = .ok (.vComplex (-9 / 4) (-3 / 2)) ∧
    cNested.widgets = [] ∧
    (mkTKConfigure 10 (some pdNested) none).2 = none ∧
    (roundTripSimple 20 cNested).2 = some (.valueError "Error in setConfig") :=
  ⟨rfl, rfl, rfl, rfl, rfl, rfl⟩

/-! ## C6 -/

@[simp] theorem withIdList_parDef (c : TKC) (x : List (String × String)) :
    (c.withIdList x).parDef = c.parDef := by cases c; rfl

@[simp] theorem withIdList_config (c : TKC) (x : List (String × String)) :
    (c.withIdList x).config = c.config := by cases c; rfl

@[simp] theorem withIdList_idList (c : TKC) (x : List (String × String)) :
    (c.withIdList x).idList = x := by cases c; rfl

@[simp] theorem withMaxWidth_parDef (c : TKC) (x : PVal) :
    (c.withMaxWidth x).parDef = c.parDef := by cases c; rfl

@[simp] theorem withMaxWidth_config (c : TKC) (x : PVal) :
    (c.withMaxWidth x).config = c.config := by cases c; rfl

@[simp] theorem withMaxWidth_idList (c : TKC) (x : PVal) :
    (c.withMaxWidth x).idList = c.idList := by cases c; rfl

/-- A definition whose only parameter has an unknown inputtype. -/
def pdBadInput : List (String × PVal) :=
  [("g", .vDict [("q", .vDict
    [("inputtype", .vStr "quux"), ("initvalue", .vInt 1)])])]

/-- C6 counterexample: installing a schema whose parameter fails validation
raises, yet the set of registered ids has changed — the id was inserted into
`idList` before `_validateParDef` ran, so the registry is not left exactly
as it was (a retry now fails with "Duplicate parameter id"). -/
theorem claim_C6_counterexample :
    (updateParameterDefinition 10 tkcEmpty pdBadInput none).2 =
      some (.typeError "Unknown inputtype for parameter") ∧
    tkcEmpty.idList = [] ∧
    (updateParameterDefinition 10 tkcEmpty pdBadInput none).1.idList = [("q", "g")] ∧
    (updateParameterDefinition 10
        (updateParameterDefinition 10 tkcEmpty pdBadInput none).1
        pdWithWidget none).2 = none ∧
    (updateParameterDefinition 10
        (updateParameterDefinition 10 tkcEmpty pdBadInput none).1
        [("g", .vDict [("q", .vDict
          [("inputtype", .vStr "int"), ("initvalue", .vInt 1),
           ("widget", .vStr "TKCEntry")])])] none).2 =
      some (.keyError "Duplicate parameter id") :=
  ⟨rfl, rfl, rfl, rfl, rfl⟩

/-- C6 amended: when installing or extending a schema fails during the
validation loop (duplicate id, unknown attribute or inputtype or widget,
bad valrange shape, initvalue of wrong type or out of range), the stored
definitions (`parDef`) and the stored values (`config`) are unchanged, but
the id registry (`idList`) and `maxWidth` keep the additions made before
the failure — the install is partial in exactly those two components. -/
theorem claim_C6_amended (fuel : Nat) (c : TKC) (pd : List (String × PVal))
    (cfg : Option (List (String × PVal))) (e : PyErr)
    (h : (updParDefGroups c.idList c.maxWidth pd).2.2.2 = some e) :
    (updateParameterDefinition fuel c pd cfg).2 = some e ∧
    (updateParameterDefinition fuel c pd cfg).1.parDef = c.parDef ∧
    (updateParameterDefinition fuel c pd cfg).1.config = c.config := by
  unfold updateParameterDefinition
  rcases hup : updParDefGroups c.idList c.maxWidth pd with ⟨il, mw, filled, err⟩
  rw [hup] at h
  simp only at h
  subst h
  simp

/-- C6 amended witness: the bad-inputtype install above satisfies the
failing-loop hypothesis and indeed leaves definitions and values intact. -/
theorem claim_C6_amended_witness :
    (updateParameterDefinition 10 tkcEmpty pdBadInput none).1.parDef = tkcEmpty.parDef ∧
    (updateParameterDefinition 10 tkcEmpty pdBadInput none).1.config = tkcEmpty.config :=
  ⟨(claim_C6_amended 10 tkcEmpty pdBadInput none
      (.typeError "Unknown inputtype for parameter") rfl).2.1,
   (claim_C6_amended 10 tkcEmpty pdBadInput none
      (.typeError "Unknown inputtype for parameter") rfl).2.2⟩

/-! ## C8 -/

theorem validateValue_bits_ok (c : TKC) (id : String) (pm : List (String × PVal))
    (labels : List PVal) (n : Int)
    (hdef : getIdDefinition c id = .ok (.vDict pm))
    (hit : alookup pm "inputtype" = some (.vStr "bits"))
    (hvr : alookup pm "valrange" = some (.vList labels))
    (h0 : 0 ≤ n) (h2 : n < (2 : Int) ^ labels.length) :
    validateValue c id (.vInt n) true = .ok (.vInt n) := by
  have hn0 : ¬(n < 0) := by omega
  have hn2 : ¬(n ≥ (2 : Int) ^ labels.length) := by omega
  unfold validateValue vvTypeCheck vvCast vvRange
  simp [bind, Except.bind, hdef, dictGetP, hit, hvr, typesMap, attrIsStr,
    pvIsStrIn, PVal.pyType, hn0, hn2]

theorem validateValue_bits_err (c : TKC) (id : String) (pm : List (String × PVal))
    (labels : List PVal) (n : Int)
    (hdef : getIdDefinition c id = .ok (.vDict pm))
    (hit : alookup pm "inputtype" = some (.vStr "bits"))
    (hvr : alookup pm "valrange" = some (.vList labels))
    (h : n < 0 ∨ (2 : Int) ^ labels.length ≤ n) :
    validateValue c id (.vInt n) true =
      .error (.valueError "Value is not valid for valrange bitmask") := by
  unfold validateValue vvTypeCheck vvCast vvRange
  rcases h with h | h
  · simp [bind, Except.bind, hdef, dictGetP, hit, hvr, typesMap, attrIsStr,
      pvIsStrIn, PVal.pyType, h]
  · have h' : n ≥ (2 : Int) ^ labels.length := h
    simp [bind, Except.bind, hdef, dictGetP, hit, hvr, typesMap, attrIsStr,
      pvIsStrIn, PVal.pyType, h']

/-- C8: for a bit-field parameter whose valrange lists `k` labels, `set`
accepts every integer in `[0, 2^k)` and rejects every other integer —
in particular `2^k` itself — with the bitmask ValueError (the raise the
spec taxonomy names EnumerationError), leaving the state untouched. -/
theorem claim_C8 (c : TKC) (id : String) (pm : List (String × PVal))
    (labels : List PVal) (sync init : Bool)
    (hdef : getIdDefinition c id = .ok (.vDict pm))
    (hit : alookup pm "inputtype" = some (.vStr "bits"))
    (hvr : alookup pm "valrange" = some (.vList labels))
    (hentry : alookup c.config id = none ∨
      ∃ m cur, alookup c.config id = some (.vDict m) ∧ alookup m "value" = some cur) :
    (∀ n : Int, 0 ≤ n → n < (2 : Int) ^ labels.length →
       (set c id (.vInt n) sync init).2 = none) ∧
    (∀ n : Int, n < 0 ∨ (2 : Int) ^ labels.length ≤ n →
       set c id (.vInt n) sync init =
         (c, some (.valueError "Value is not valid for valrange bitmask"))) := by
  constructor
  · intro n hn0 hn2
    have hval := validateValue_bits_ok c id pm labels n hdef hit hvr hn0 hn2
    rcases hentry with hnone | ⟨m, cur, hm, hcur⟩
    · rw [set_of_fresh sync init hval hnone]
    · cases init with
      | true => rw [set_of_init sync hval hm]
      | false =>
        cases heq : pyEq (.vInt n) cur with
        | true => rw [set_of_eq sync hval hm hcur heq]
        | false => rw [set_of_ne sync hval hm hcur heq]
  · intro n hn
    exact set_of_invalid sync init (validateValue_bits_err c id pm labels n hdef hit hvr hn)

/-- The engine with one three-label bit-field parameter installed. -/
def pdBits : List (String × PVal) :=
  [("g", .vDict [("b", .vDict
    [("inputtype", .vStr "bits"),
     ("valrange", .vList [.vStr "b0", .vStr "b1", .vStr "b2"]),
     ("initvalue", .vInt 0),
     ("widget", .vStr "TKCFlags")])])]

/-- Bit-field store. -/
def cBits : TKC := (mkTKConfigure 10 (some pdBits) none).1

/-- C8 witness: with three labels, 7 is accepted and 8 = 2^3 is rejected
with the bitmask error, leaving the store untouched. -/
theorem claim_C8_witness :
    (set cBits "b" (.vInt 7) false false).2 = none ∧
    set cBits "b" (.vInt 8) false false =
      (cBits, some (.valueError "Value is not valid for valrange bitmask")) := by
  have h := claim_C8 cBits "b" [("inputtype", .vStr "bits"),
      ("valrange", .vList [.vStr "b0", .vStr "b1", .vStr "b2"]),
      ("initvalue", .vInt 0), ("widget", .vStr "TKCFlags"),
      ("label", .vStr ""), ("width", .vInt 20), ("widgetattr", .vDict []),
      ("notify", .vNone), ("row", .vInt (-1)), ("column", .vInt (-1)),
      ("readonly", .vBool false), ("tooltip", .vStr ""), ("pardef", .vNone)]
      [.vStr "b0", .vStr "b1", .vStr "b2"] false false
      rfl rfl rfl
      (Or.inr ⟨[("oldValue", .vInt 0), ("value", .vInt 0)], .vInt 0, rfl, rfl⟩)
  exact ⟨h.1 7 (by omega) (by norm_num), h.2 8 (by norm_num)⟩

/-! ## C9 -/

theorem syncWidget_state (c : TKC) (x : Option String) : (syncWidget c x).1 = c := by
  unfold syncWidget
  repeat' split
  all_goals rfl

theorem set_defs (c : TKC) (id : String) (v : PVal) (s i : Bool) :
    (set c id v s i).1.idList = c.idList ∧
    (set c id v s i).1.parDef = c.parDef ∧
    (set c id v s i).1.widgets = c.widgets ∧
    (set c id v s i).1.notifyChange = c.notifyChange := by
  unfold set
  cases hval : validateValue c id v true with
  | error e => simp
  | ok w =>
    cases hcond : setCond (alookup c.config id) i with
    | error e => simp [hcond]
    | ok bb =>
      simp only [hcond]
      cases bb <;> repeat' split
      all_goals simp [syncWidget_state]

/-- C9: on the UI-facing update path for a known id holding a value, with a
valid non-None new value, a configured per-parameter notify callback and a
configured global notifyChange callback: the value is committed into the
store (exactly the `set` result) and the trace is the commit, then exactly
one per-parameter notify with (oldValue, newValue), then exactly one global
notifyChange with (id, oldValue, newValue), in that order. -/
theorem claim_C9 (c : TKC) (id : String) (v old : PVal)
    (pm : List (String × PVal)) (t g : Nat)
    (hknown : (slookup c.idList id).isSome = true)
    (hold : get c id false false = .ok old)
    (hvnone : v.pyType ≠ .tyNone)
    (hset : (set c id v false false).2 = none)
    (hdef : getIdDefinition c id = .ok (.vDict pm))
    (hnt : alookup pm "notify" = some (.vCallback t))
    (hgl : c.notifyChange = some g) :
    onChange c id v =
      ((set c id v false false).1, none,
       [Ev.commit id v, Ev.notifyEv t old v, Ev.notifyChangeEv id old v]) := by
  have hnn : (slookup c.idList id).isNone = false := by
    cases h : slookup c.idList id with
    | none => rw [h] at hknown; simp at hknown
    | some _ => rfl
  have hvb : (v.pyType != PyType.tyNone) = true := by
    simpa using hvnone
  have hdefs := set_defs c id v false false
  rcases hsp : set c id v false false with ⟨c1, err1⟩
  rw [hsp] at hset hdefs
  simp only at hset hdefs
  subst hset
  have hdef1 : getIdDefinition c1 id = .ok (.vDict pm) := by
    rw [getIdDefinition_congr c c1 hdefs.1 hdefs.2.1]
    exact hdef
  have hgl1 : c1.notifyChange = some g := by
    rw [hdefs.2.2.2]
    exact hgl
  have hmem : amem pm "notify" = true := amem_of_alookup hnt
  unfold onChange
  rw [hnn]
  simp only [Bool.false_eq_true, if_false, hvb, if_true, hold, hsp]
  simp [hdef1, hmem, hnt, PVal.pyType, hgl1]

/-- Replace the global change callback; models `TKConfigure.notify(onchange)`. -/
def TKC.withNotifyChange : TKC → Option Nat → TKC
  | .mk il pd cfg w mw _, nc => .mk il pd cfg w mw nc

/-- A parameter with a per-parameter notify callback (tag 1). -/
def pdNotify : List (String × PVal) :=
  [("g", .vDict [("p", .vDict
    [("inputtype", .vStr "int"),
     ("valrange", .vTuple [.vInt 0, .vInt 10]),
     ("initvalue", .vInt 5),
     ("widget", .vStr "TKCEntry"),
     ("notify", .vCallback 1)])])]

/-- The engine with `pdNotify` installed and a global callback (tag 2). -/
def cNotify : TKC :=
  ((mkTKConfigure 10 (some pdNotify) none).1).withNotifyChange (some 2)

/-- C9 witness: pushing the value 7 through the update path on `cNotify`
commits it and fires notify(5, 7) before notifyChange(p, 5, 7). -/
theorem claim_C9_witness :
    (onChange cNotify "p" (.vInt 7)).2.2 =
      [Ev.commit "p" (.vInt 7), Ev.notifyEv 1 (.vInt 5) (.vInt 7),
       Ev.notifyChangeEv "p" (.vInt 5) (.vInt 7)] := by
  have h := claim_C9 cNotify "p" (.vInt 7) (.vInt 5)
    [("inputtype", .vStr "int"),
     ("valrange", .vTuple [.vInt 0, .vInt 10]),
     ("initvalue", .vInt 5),
     ("widget", .vStr "TKCEntry"),
     ("notify", .vCallback 1),
     ("label", .vStr ""), ("width", .vInt 20), ("widgetattr", .vDict []),
     ("row", .vInt (-1)), ("column", .vInt (-1)),
     ("readonly", .vBool false), ("tooltip", .vStr ""), ("pardef", .vNone)]
    1 2 rfl rfl (by decide) rfl rfl rfl rfl
  rw [h]

/-! ## C7 -/

/-- The value-store invariant of claim C7: every entry is a dict holding
value and oldValue, and both pass the engine's own validation (which
includes the valrange check) for their id. -/
structure Inv (c : TKC) : Prop where
  shape : ∀ p ∈ c.config, EntryWF p.2
  vals : ∀ id m v, alookup c.config id = some (.vDict m) →
    (alookup m "value" = some v ∨ alookup m "oldValue" = some v) →
    validateValue c id v true = .ok v

/-- Rebuild the invariant for a state with the same schema from facts
stated against the old state's validator. -/
theorem Inv.transport (c c' : TKC) (h1 : c'.idList = c.idList)
    (h2 : c'.parDef = c.parDef)
    (hshape : ∀ p ∈ c'.config, EntryWF p.2)
    (hvals : ∀ id m v, alookup c'.config id = some (.vDict m) →
      (alookup m "value" = some v ∨ alookup m "oldValue" = some v) →
      validateValue c id v true = .ok v) : Inv c' := by
  refine ⟨hshape, ?_⟩
  intro id m v hm hv
  rw [validateValue_congr c c' h1 h2]
  exact hvals id m v hm hv

/-- Validation of a nested-engine value never inspects the child engine:
if one nested value validates for an id, any nested value does. -/
theorem validateValue_tkc_of_tkc (c : TKC) (id : String) (x y : TKC) (b b' : Bool)
    (h : validateValue c id (.vTkc x) b = .ok (.vTkc x)) :
    validateValue c id (.vTkc y) b' = .ok (.vTkc y) := by
  unfold validateValue at h ⊢
  simp only [bind, Except.bind] at h ⊢
  cases hpc : getIdDefinition c id with
  | error e => rw [hpc] at h; cases h
  | ok parCfg =>
    rw [hpc] at h
    dsimp only at h ⊢
    have htc : vvTypeCheck parCfg (.vTkc y) = vvTypeCheck parCfg (.vTkc x) := rfl
    cases htcx : vvTypeCheck parCfg (.vTkc x) with
    | error e => rw [htcx] at h; cases h
    | ok tcv =>
      rw [htcx] at h
      dsimp only at h
      rw [vvCast_noop parCfg (.vTkc x) b tcv htcx] at h
      dsimp only at h
      rw [htc, htcx]
      dsimp only
      rw [vvCast_noop parCfg (.vTkc y) b' tcv htcx]
      dsimp only
      have hrg : vvRange parCfg (.vTkc y) = vvRange parCfg (.vTkc x) := rfl
      rw [hrg]
      cases hrx : vvRange parCfg (.vTkc x) with
      | error e => rw [hrx] at h; cases h
      | ok rv => rfl

theorem amem_exists {l : List (String × PVal)} {k : String}
    (h : amem l k = true) : ∃ v, alookup l k = some v := by
  cases hh : alookup l k with
  | none => simp [amem, hh] at h
  | some x => exact ⟨x, rfl⟩

/-- Replacing (or adding) one entry whose two fields validate preserves the
invariant. -/
theorem Inv_aset (c : TKC) (id : String) (a bv : PVal) (hI : Inv c)
    (hva : validateValue c id a true = .ok a)
    (hvb : validateValue c id bv true = .ok bv) :
    Inv (c.withConfig (aset c.config id (.vDict [("oldValue", a), ("value", bv)]))) := by
  refine Inv.transport c _ ?_ ?_ ?_ ?_
  · simp
  · simp
  · intro p hp
    rw [withConfig_config] at hp
    rcases mem_aset hp with h | h
    · rw [h]; exact ⟨_, rfl, rfl, rfl⟩
    · exact hI.shape p h
  · intro id' m v' hm hv'
    rw [withConfig_config] at hm
    by_cases hid : id' = id
    · subst hid
      rw [alookup_aset_self] at hm
      injection hm with hm2
      injection hm2 with hm3
      subst hm3
      rcases hv' with h | h
      · simp [alookup] at h
        subst h
        exact hvb
      · simp [alookup] at h
        subst h
        exact hva
    · rw [alookup_aset_ne _ _ _ _ hid] at hm
      exact hI.vals id' m v' hm hv'

/-- `set` preserves the store invariant (including on failure, where the
state is unchanged). -/
theorem set_inv (c : TKC) (id : String) (v : PVal) (s i : Bool) (hI : Inv c) :
    Inv (set c id v s i).1 := by
  cases hval : validateValue c id v true with
  | error e => rw [set_of_invalid s i hval]; exact hI
  | ok w =>
    have hwv := validateValue_ok_eq c id v w true hval
    subst hwv
    cases hc : alookup c.config id with
    | none =>
      rw [set_of_fresh s i hval hc]
      exact Inv_aset c id w w hI hval hval
    | some e =>
      obtain ⟨m, hme, hmv, hmo⟩ := hI.shape (id, e) (alookup_some_mem hc)
      subst hme
      obtain ⟨cur, hcur⟩ := amem_exists hmv
      have hcurval : validateValue c id cur true = .ok cur :=
        hI.vals id m cur hc (Or.inl hcur)
      cases i with
      | true =>
        rw [set_of_init s hval hc]
        exact Inv_aset c id w w hI hval hval
      | false =>
        cases heq : pyEq w cur with
        | true => rw [set_of_eq s hval hc hcur heq]; exact hI
        | false =>
          rw [set_of_ne s hval hc hcur heq]
          exact Inv_aset c id cur w hI hcurval hval

/-- The error-propagating fold that the bulk operations use: apply a step
per element, stopping at the first exception. -/
def foldSteps {α : Type} (step : TKC → α → TKC × Option PyErr)
    (xs : List α) (c : TKC) : TKC × Option PyErr :=
  xs.foldl
    (fun acc x =>
      match acc with
      | (c', none) => step c' x
      | st => st)
    (c, none)

theorem foldl_stuck {α : Type} (step : TKC → α → TKC × Option PyErr)
    (xs : List α) (c : TKC) (e : PyErr) :
    xs.foldl
      (fun acc x =>
        match acc with
        | (c', none) => step c' x
        | st => st)
      (c, some e) = (c, some e) := by
  induction xs with
  | nil => rfl
  | cons hd tl ih => simpa using ih

/-- A state predicate preserved by each step is preserved by the whole
fold. -/
theorem foldSteps_inv {α : Type} (step : TKC → α → TKC × Option PyErr)
    (P : TKC → Prop) (hstep : ∀ c x, P c → P (step c x).1)
    (xs : List α) (c : TKC) (hc : P c) : P (foldSteps step xs c).1 := by
  induction xs generalizing c with
  | nil => exact hc
  | cons hd tl ih =>
    unfold foldSteps
    simp only [List.foldl_cons]
    rcases hs : step c hd with ⟨c1, e1⟩
    have h1 : P c1 := by
      have := hstep c hd hc
      rw [hs] at this
      exact this
    cases e1 with
    | none => exact ih c1 h1
    | some e => rw [foldl_stuck]; exact h1

/-- `apply` on one id preserves the invariant: it copies the (validated)
current value into oldValue, or fails leaving the state unchanged. -/
theorem applyOne_inv (c : TKC) (groups : List String) (id : String) (s : Bool)
    (hI : Inv c) : Inv (applyOne c groups id s).1 := by
  unfold applyOne
  cases hcond : applyCond c groups id with
  | error e => exact hI
  | ok bb =>
    cases bb with
    | false => exact hI
    | true =>
      cases hc : alookup c.config id with
      | none => exact hI
      | some entry =>
        obtain ⟨m, hme, hmv, hmo⟩ := hI.shape (id, entry) (alookup_some_mem hc)
        subst hme
        obtain ⟨cur, hcur⟩ := amem_exists hmv
        have hcurval : validateValue c id cur true = .ok cur :=
          hI.vals id m cur hc (Or.inl hcur)
        simp only [dictGetP, hcur, dictSetP]
        refine Inv.transport c _ ?_ ?_ ?_ ?_
        · simp
        · simp
        · intro p hp
          rw [withConfig_config] at hp
          rcases mem_aset hp with h | h
          · rw [h]
            refine ⟨_, rfl, ?_, ?_⟩
            · rw [amem, alookup_aset_ne _ _ _ _ (by decide)]
              exact hmv
            · exact amem_of_alookup (alookup_aset_self _ _ _)
          · exact hI.shape p h
        · intro id' m' v' hm' hv'
          rw [withConfig_config] at hm'
          by_cases hid : id' = id
          · subst hid
            rw [alookup_aset_self] at hm'
            injection hm' with hm2
            injection hm2 with hm3
            subst hm3
            rcases hv' with h | h
            · rw [alookup_aset_ne _ _ _ _ (by decide)] at h
              exact hI.vals _ m v' hc (Or.inl h)
            · rw [alookup_aset_self] at h
              injection h with h2
              subst h2
              exact hcurval
          · rw [alookup_aset_ne _ _ _ _ hid] at hm'
            exact hI.vals id' m' v' hm' hv'

/-- `undo` on one id preserves the invariant: it copies the (validated)
oldValue into value, or does nothing, or fails leaving the state
unchanged. -/
theorem undoOne_inv (c : TKC) (groups : List String) (id : String)
    (hI : Inv c) : Inv (undoOne c groups id).1 := by
  unfold undoOne
  cases hc : alookup c.config id with
  | none => exact hI
  | some entry =>
    obtain ⟨m, hme, hmv, hmo⟩ := hI.shape (id, entry) (alookup_some_mem hc)
    subst hme
    dsimp only
    cases hcond : undoCond c groups id (.vDict m) with
    | error e => exact hI
    | ok bb =>
      cases bb with
      | false => exact hI
      | true =>
        obtain ⟨ov, hov⟩ := amem_exists hmo
        have hovval : validateValue c id ov true = .ok ov :=
          hI.vals id m ov hc (Or.inr hov)
        simp only [dictGetP, hov, dictSetP]
        refine Inv.transport c _ ?_ ?_ ?_ ?_
        · simp
        · simp
        · intro p hp
          rw [withConfig_config] at hp
          rcases mem_aset hp with h | h
          · rw [h]
            refine ⟨_, rfl, ?_, ?_⟩
            · exact amem_of_alookup (alookup_aset_self _ _ _)
            · rw [amem, alookup_aset_ne _ _ _ _ (by decide)]
              exact hmo
          · exact hI.shape p h
        · intro id' m' v' hm' hv'
          rw [withConfig_config] at hm'
          by_cases hid : id' = id
          · subst hid
            rw [alookup_aset_self] at hm'
            injection hm' with hm2
            injection hm2 with hm3
            subst hm3
            rcases hv' with h | h
            · rw [alookup_aset_self] at h
              injection h with h2
              subst h2
              exact hovval
            · rw [alookup_aset_ne _ _ _ _ (by decide)] at h
              exact hI.vals _ m v' hc (Or.inr h)
          · rw [alookup_aset_ne _ _ _ _ hid] at hm'
            exact hI.vals id' m' v' hm' hv'

/-- Scoped or full `apply` preserves the invariant. -/
theorem apply_inv (c : TKC) (groups : List String) (id : Option String)
    (s : Bool) (hI : Inv c) : Inv (apply c groups id s).1 := by
  cases id with
  | some i => exact applyOne_inv c groups i s hI
  | none =>
    show Inv (foldSteps (fun c' i => applyOne c' groups i true)
      (c.config.map Prod.fst) c).1
    exact foldSteps_inv _ Inv (fun c' i h => applyOne_inv c' groups i true h) _ c hI

/-- Scoped or full `undo` preserves the invariant. -/
theorem undo_inv (c : TKC) (groups : List String) (id : Option String)
    (hI : Inv c) : Inv (undo c groups id).1 := by
  cases id with
  | some i => exact undoOne_inv c groups i hI
  | none =>
    show Inv (foldSteps (fun c' i => undoOne c' groups i)
      (c.config.map Prod.fst) c).1
    exact foldSteps_inv _ Inv (fun c' i h => undoOne_inv c' groups i h) _ c hI

/-- `setValues` preserves the invariant. -/
theorem setValues_inv (c : TKC) (kvs : List (String × PVal)) (s : Bool)
    (hI : Inv c) : Inv (setValues c kvs s).1 := by
  show Inv (foldSteps (fun c' kv => set c' kv.1 kv.2 s false) kvs c).1
  exact foldSteps_inv _ Inv (fun c' kv h => set_inv c' kv.1 kv.2 s false h) _ c hI

/-- `setDefaultValue` preserves the invariant. -/
theorem setDefaultValue_inv (c : TKC) (group id : String) (hI : Inv c) :
    Inv (setDefaultValue c group id).1 := by
  unfold setDefaultValue
  cases hg : validateGroupId c (some group) (some id) with
  | some e => exact hI
  | none =>
    dsimp only
    cases hp : getPar c group id "initvalue" with
    | error e => exact hI
    | ok initvalue =>
      dsimp only
      cases hv : validateValue c id initvalue true with
      | error e => exact hI
      | ok nInit => exact set_inv c id nInit false false hI

/-- `resetConfigValues` preserves the invariant. -/
theorem resetConfigValues_inv (c : TKC) (pd : Option (List (String × PVal)))
    (hI : Inv c) : Inv (resetConfigValues c pd).1 := by
  show Inv (foldSteps
    (fun c' gkv =>
      match gkv.2 with
      | .vDict m =>
          foldSteps (fun c'' kv => setDefaultValue c'' gkv.1 kv.1) m c'
      | _ => (c', some (.typeError "object is not iterable")))
    (pd.getD c.parDef) c).1
  refine foldSteps_inv _ Inv ?_ _ c hI
  intro c' gkv h
  cases hgv : gkv.2 with
  | vDict m =>
    simp only
    exact foldSteps_inv _ Inv
      (fun c'' kv hh => setDefaultValue_inv c'' gkv.1 kv.1 hh) _ c' h
  | vInt n => exact h
  | vFloat q => exact h
  | vBool b => exact h
  | vStr s => exact h
  | vComplex r i => exact h
  | vNone => exact h
  | vTuple xs => exact h
  | vList xs => exact h
  | vCallback t => exact h
  | vTkc cc => exact h

/-- An empty value store satisfies the invariant. -/
theorem Inv_clear (c : TKC) : Inv (c.withConfig []) := by
  refine Inv.transport c _ ?_ ?_ ?_ ?_
  · simp
  · simp
  · intro p hp
    rw [withConfig_config] at hp
    simp at hp
  · intro id m v hm _
    rw [withConfig_config] at hm
    simp [alookup] at hm

/-- One simple-mode `setConfig` item preserves the invariant; for a
nested-config id the stored child engine is replaced by another child
engine, which validates because validation never inspects the child. -/
theorem setConfigItem_inv (fuel : Nat) (c : TKC) (id : String) (value : PVal)
    (s : Bool) (hI : Inv c) : Inv (setConfigItem fuel c id value s).1 := by
  cases fuel with
  | zero => exact hI
  | succ n =>
    unfold setConfigItem
    cases hdef : getIdDefinition c id with
    | error e => exact hI
    | ok parCfg =>
      dsimp only
      cases hit : dictGetP parCfg "inputtype" with
      | error e => exact hI
      | ok it =>
        dsimp only
        cases htkc : attrIsStr it "tkc" with
        | false =>
          simp only [htkc, Bool.false_eq_true, if_false]
          rcases hsr : set c id value s true with ⟨c2, e2⟩
          have h2 : Inv c2 := by
            have hh := set_inv c id value s true hI
            rw [hsr] at hh
            exact hh
          cases e2 <;> exact h2
        | true =>
          simp only [htkc, if_true]
          cases hdict : value.pyType == PyType.tyDict with
          | false => simp only [hdict, Bool.false_eq_true, if_false]; exact hI
          | true =>
            simp only [hdict, if_true]
            cases hc : alookup c.config id with
            | none => exact hI
            | some entry =>
              obtain ⟨m, hme, hmv, hmo⟩ := hI.shape (id, entry) (alookup_some_mem hc)
              subst hme
              dsimp only
              obtain ⟨stored, hstored⟩ := amem_exists hmv
              simp only [dictGetP, hstored]
              cases stored with
              | vTkc child =>
                cases value with
                | vDict vm =>
                  dsimp only [dictSetP]
                  have hstval : validateValue c id (.vTkc child) true = .ok (.vTkc child) :=
                    hI.vals id m (.vTkc child) hc (Or.inl hstored)
                  have hnewval := validateValue_tkc_of_tkc c id child
                    (setConfig n child vm true false false false false).1 true true hstval
                  have h2 : Inv (c.withConfig (aset c.config id
                      (.vDict (aset m "value"
                        (.vTkc (setConfig n child vm true false false false false).1))))) := by
                    refine Inv.transport c _ ?_ ?_ ?_ ?_
                    · simp
                    · simp
                    · intro p hp
                      rw [withConfig_config] at hp
                      rcases mem_aset hp with h | h
                      · rw [h]
                        refine ⟨_, rfl, ?_, ?_⟩
                        · exact amem_of_alookup (alookup_aset_self _ _ _)
                        · rw [amem, alookup_aset_ne _ _ _ _ (by decide)]
                          exact hmo
                      · exact hI.shape p h
                    · intro id' m' v' hm' hv'
                      rw [withConfig_config] at hm'
                      by_cases hid : id' = id
                      · subst hid
                        rw [alookup_aset_self] at hm'
                        injection hm' with hm2
                        injection hm2 with hm3
                        subst hm3
                        rcases hv' with h | h
                        · rw [alookup_aset_self] at h
                          injection h with h2
                          subst h2
                          exact hnewval
                        · rw [alookup_aset_ne _ _ _ _ (by decide)] at h
                          exact hI.vals _ m v' hc (Or.inr h)
                      · rw [alookup_aset_ne _ _ _ _ hid] at hm'
                        exact hI.vals id' m' v' hm' hv'
                  rcases hcr : (setConfig n child vm true false false false false).2 with _ | e3
                  · rcases hsw : syncWidget (c.withConfig (aset c.config id
                        (.vDict (aset m "value"
                          (.vTkc (setConfig n child vm true false false false false).1)))))
                        (some id) with ⟨c4, e4⟩
                    have hc4 : c4 = c.withConfig (aset c.config id
                        (.vDict (aset m "value"
                          (.vTkc (setConfig n child vm true false false false false).1)))) := by
                      have hh := syncWidget_state (c.withConfig (aset c.config id
                        (.vDict (aset m "value"
                          (.vTkc (setConfig n child vm true false false false false).1)))))
                        (some id)
                      rw [hsw] at hh
                      exact hh
                    simp only [hcr, hsw]
                    cases e4 <;> (dsimp only; rw [hc4]; exact h2)
                  · simp only [hcr]
                    exact h2
                | vInt nn => simp [PVal.pyType] at hdict
                | vFloat q => simp [PVal.pyType] at hdict
                | vBool b => simp [PVal.pyType] at hdict
                | vStr st => simp [PVal.pyType] at hdict
                | vComplex re im => simp [PVal.pyType] at hdict
                | vNone => simp [PVal.pyType] at hdict
                | vTuple xs => simp [PVal.pyType] at hdict
                | vList xs => simp [PVal.pyType] at hdict
                | vCallback t => simp [PVal.pyType] at hdict
                | vTkc cc => simp [PVal.pyType] at hdict
              | vInt nn => exact hI
              | vFloat q => exact hI
              | vBool b => exact hI
              | vStr st => exact hI
              | vComplex re im => exact hI
              | vNone => exact hI
              | vTuple xs => exact hI
              | vList xs => exact hI
              | vDict dm => exact hI
              | vCallback t => exact hI

/-- The simple-mode `setConfig` item loop preserves the invariant. -/
theorem setConfigItems_inv : ∀ (fuel : Nat) (c : TKC) (items : List (String × PVal))
    (s : Bool), Inv c → Inv (setConfigItems fuel c items s).1 := by
  intro fuel
  induction fuel with
  | zero => intro c items s hI; cases items <;> exact hI
  | succ n ih =>
    intro c items s hI
    cases items with
    | nil => exact hI
    | cons hd rest =>
      obtain ⟨id, value⟩ := hd
      show Inv (match setConfigItem n c id value s with
                | (c2, none) => setConfigItems n c2 rest s
                | st => st).1
      rcases hstep : setConfigItem n c id value s with ⟨c2, e2⟩
      have h2 : Inv c2 := by
        have hh := setConfigItem_inv n c id value s hI
        rw [hstep] at hh
        exact hh
      cases e2 with
      | none => exact ih c2 rest s h2
      | some e => exact h2

/-- Simple-mode `setConfig` preserves the invariant through the optional
clear, the optional reset, and the per-item loop. -/
theorem setConfig_inv (fuel : Nat) (c : TKC) (cfg : List (String × PVal))
    (cm r cl s : Bool) (hI : Inv c) :
    Inv (setConfig fuel c cfg true cm r cl s).1 := by
  cases fuel with
  | zero => exact hI
  | succ n =>
    show Inv (match validateConfig c cfg true with
      | some e => (c, some e)
      | none =>
        let c := if cl then c.withConfig [] else c
        let resetRes := if r then resetConfigValues c none else (c, none)
        match resetRes with
        | (c, some e) => (c, some e)
        | (c, none) =>
          let applied :=
            if true then setConfigItems n c cfg s
            else (c.withConfig (aupdate c.config cfg), none)
          match applied with
          | (c, some e) => (c, some e)
          | (c, none) =>
            if cm then
              match c.idList.find? (fun kv : String × String => !(amem c.config kv.1)) with
              | some _ => (c, some (.keyError "Missing id in configuration values"))
              | none => (c, none)
            else (c, none)).1
    cases hv : validateConfig c cfg true with
    | some e => exact hI
    | none =>
      dsimp only
      have h1 : Inv (if cl then c.withConfig [] else c) := by
        cases cl with
        | true => exact Inv_clear c
        | false => exact hI
      rcases hr : (if r then resetConfigValues (if cl then c.withConfig [] else c) none
          else ((if cl then c.withConfig [] else c), none)) with ⟨c2, e2⟩
      have h2 : Inv c2 := by
        cases r with
        | true =>
          simp only [if_true] at hr
          have hh := resetConfigValues_inv (if cl then c.withConfig [] else c) none h1
          rw [hr] at hh
          exact hh
        | false =>
          simp only [Bool.false_eq_true, if_false] at hr
          injection hr with hc2 _
          rw [← hc2]
          exact h1
      cases e2 with
      | some e => exact h2
      | none =>
        dsimp only [if_true]
        rcases ha : setConfigItems n c2 cfg s with ⟨c3, e3⟩
        have h3 : Inv c3 := by
          have hh := setConfigItems_inv n c2 cfg s h2
          rw [ha] at hh
          exact hh
        cases e3 with
        | some e => exact h3
        | none =>
          show Inv (if cm = true then
              match List.find? (fun kv : String × String => !(amem c3.config kv.1)) c3.idList with
              | some x => (c3, some (PyErr.keyError "Missing id in configuration values"))
              | none => (c3, (none : Option PyErr))
            else (c3, (none : Option PyErr))).1
          cases cm with
          | false => exact h3
          | true =>
            cases List.find? (fun kv : String × String => !(amem c3.config kv.1)) c3.idList <;> exact h3

/-- The public mutating operations of claim C7 that preserve the range
invariant: `set`, `setValues`, simple-mode `setConfig`, `apply`, `undo`. -/
inductive Op where
  | opSet (id : String) (v : PVal) (sync init : Bool)
  | opSetValues (kvs : List (String × PVal)) (sync : Bool)
  | opSetConfigSimple (fuel : Nat) (cfg : List (String × PVal))
      (checkmissing reset clear sync : Bool)
  | opApply (groups : List String) (id : Option String) (sync : Bool)
  | opUndo (groups : List String) (id : Option String)

/-- Run one operation, keeping the (possibly partially mutated) state and
discarding the raised exception, as a caller that catches it would. -/
def runOp (c : TKC) : Op → TKC
  | .opSet id v s i => (set c id v s i).1
  | .opSetValues kvs s => (setValues c kvs s).1
  | .opSetConfigSimple fuel cfg cm r cl s => (setConfig fuel c cfg true cm r cl s).1
  | .opApply groups id s => (apply c groups id s).1
  | .opUndo groups id => (undo c groups id).1

/-- Run a sequence of operations. -/
def runOps (c : TKC) (ops : List Op) : TKC := ops.foldl runOp c

/-- Every single operation preserves the invariant. -/
theorem runOp_inv (c : TKC) (op : Op) (hI : Inv c) : Inv (runOp c op) := by
  cases op with
  | opSet id v s i => exact set_inv c id v s i hI
  | opSetValues kvs s => exact setValues_inv c kvs s hI
  | opSetConfigSimple fuel cfg cm r cl s => exact setConfig_inv fuel c cfg cm r cl s hI
  | opApply groups id s => exact apply_inv c groups id s hI
  | opUndo groups id => exact undo_inv c groups id hI

/-- Every sequence of operations preserves the invariant. -/
theorem runOps_inv (c : TKC) (ops : List Op) (hI : Inv c) : Inv (runOps c ops) := by
  induction ops generalizing c with
  | nil => exact hI
  | cons op rest ih => exact ih (runOp c op) (runOp_inv c op hI)

/-- The freshly installed maxIter engine satisfies the invariant: its only
entry stores value = oldValue = 256, which validates. -/
theorem cMI_inv : Inv cMI := by
  have hc : cMI.config =
      [("maxIter", .vDict [("oldValue", .vInt 256), ("value", .vInt 256)])] := rfl
  constructor
  · intro p hp
    rw [hc] at hp
    simp only [List.mem_singleton] at hp
    subst hp
    exact ⟨_, rfl, rfl, rfl⟩
  · intro id m v hm hv
    rw [hc] at hm
    by_cases hid : ("maxIter" : String) = id
    · subst hid
      simp only [alookup, beq_self_eq_true, if_true] at hm
      injection hm with hm2
      injection hm2 with hm3
      subst hm3
      have hv256 : v = .vInt 256 := by
        rcases hv with h | h <;> (simp only [alookup] at h; split at h <;> simp_all)
      subst hv256
      rfl
    · simp only [alookup, beq_eq_false_iff_ne.mpr hid, Bool.false_eq_true, if_false] at hm
      cases hm

/-- C7 counterexample: the original claim fails for full-mode `setConfig`
followed by `undo`.  `setConfig(simple=False)` validates only the `value`
field of each entry and then installs the whole entry, so an out-of-range
`oldValue` (99 against valrange (100, 4000, 10)) is stored; `undo` then
promotes it into the current value, which `get` returns although it fails
validation in that very state. -/
theorem claim_C7_counterexample :
    (setConfig 10 cMI
      [("maxIter", .vDict [("value", .vInt 300), ("oldValue", .vInt 99)])]
      false false false false false).2 = none ∧
    get (undo (setConfig 10 cMI
      [("maxIter", .vDict [("value", .vInt 300), ("oldValue", .vInt 99)])]
      false false false false false).1 [] none).1 "maxIter" true false =
      .ok (.vInt 99) ∧
    validateValue (undo (setConfig 10 cMI
      [("maxIter", .vDict [("value", .vInt 300), ("oldValue", .vInt 99)])]
      false false false false false).1 [] none).1 "maxIter" (.vInt 99) true =
      .error (.valueError "Value not in valrange") :=
  ⟨rfl, rfl, rfl⟩

/-- C7 (amended): starting from a state in which every stored value and
oldValue validates — in particular satisfies its valrange — any sequence
of the public mutating operations `set`, `setValues`, simple-mode
`setConfig`, `apply` and `undo` preserves that invariant, and an
assignment whose value fails validation raises and returns the state
unchanged, storing nothing.  Full-mode `setConfig` (and `setPar`, which
installs raw entries the same way) is excluded: it stores an unvalidated
`oldValue`, which `undo` promotes into the current value. -/
theorem claim_C7_amended (c : TKC) (ops : List Op) (hI : Inv c) :
    Inv (runOps c ops) ∧
    ∀ id v e s i, validateValue c id v true = .error e →
      set c id v s i = (c, some e) :=
  ⟨runOps_inv c ops hI, fun _ _ _ s i hv => set_of_invalid s i hv⟩

/-- C7 witness: the maxIter engine keeps the invariant across a concrete
set / apply / undo sequence, and a `set` of the out-of-range 50 raises the
range error leaving the state untouched. -/
theorem claim_C7_amended_witness :
    Inv (runOps cMI [.opSet "maxIter" (.vInt 500) false false,
      .opApply [] none false, .opUndo [] none]) ∧
    set cMI "maxIter" (.vInt 50) false false =
      (cMI, some (.valueError "Value not in valrange")) :=
  ⟨(claim_C7_amended cMI [.opSet "maxIter" (.vInt 500) false false,
      .opApply [] none false, .opUndo [] none] cMI_inv).1,
   (claim_C7_amended cMI [] cMI_inv).2 "maxIter" (.vInt 50)
     (.valueError "Value not in valrange") false false rfl⟩
